import Mathlib

/-!
Verification development for the taggolib audio-metadata library.

The Go sources are shallowly embedded.  A byte string (Go `[]byte` or
`string`) is a `ByteStr`: its length together with its bytes packed
little-endian into one natural number (byte `i` is `val / 256 ^ i % 256`),
so that slicing, concatenation, length and equality are plain arithmetic.
A seekable byte stream (`io.ReadSeeker` backed by `bytes.Reader`, as the
library's tests use) is a `BReader`.  Fallible parsing returns `PRes`,
whose `panicked` value models a Go runtime panic (slice out of range,
integer division by zero).  Go maps from string to string become
association lists with first-match semantics and the zero value (the
empty string) for a missing key, matching Go map reads.
-/

set_option maxRecDepth 8000
set_option exponentiation.threshold 100000

/-- A byte string: `size` bytes, packed little-endian into `val`
(byte `i` of the string is `val / 256 ^ i % 256`).  A well-formed value
satisfies `WF` below; all operations preserve it. -/
structure ByteStr where
  size : Nat
  val : Nat
deriving DecidableEq

/-- Well-formedness: the packed value has no bits beyond `size` bytes.
With it, equality of `ByteStr` values is exactly Go's `bytes.Equal`. -/
def ByteStr.WF (s : ByteStr) : Prop := s.val < 256 ^ s.size

instance (s : ByteStr) : Decidable s.WF := by unfold ByteStr.WF; infer_instance

/-- Byte `i` of a byte string. -/
def ByteStr.byteAt (s : ByteStr) (i : Nat) : Nat := s.val / 256 ^ i % 256

/-- The empty byte string. -/
def ByteStr.empty : ByteStr := ⟨0, 0⟩

/-- A zero-filled byte string (`make([]byte, n)`). -/
def ByteStr.zeros (n : Nat) : ByteStr := ⟨n, 0⟩

/-- The first `k` bytes (at most `size`, like Go slicing to a bound that
callers have checked). -/
def ByteStr.take (s : ByteStr) (k : Nat) : ByteStr :=
  ⟨min k s.size, s.val % 256 ^ min k s.size⟩

/-- The byte string without its first `k` bytes. -/
def ByteStr.drop (s : ByteStr) (k : Nat) : ByteStr := ⟨s.size - k, s.val / 256 ^ k⟩

/-- Concatenation. -/
def ByteStr.append (a b : ByteStr) : ByteStr :=
  ⟨a.size + b.size, a.val % 256 ^ a.size + b.val * 256 ^ a.size⟩

/-- One byte in front of a byte string. -/
def ByteStr.cons (b : Nat) (s : ByteStr) : ByteStr := ⟨s.size + 1, b % 256 + 256 * s.val⟩

/-- Overwrite the first `chunk.size` bytes of `buf` with `chunk`, keeping
the remaining bytes: what a Go `Read` into a prefix slice of a reused
buffer does to the buffer. -/
def ByteStr.overwrite (buf chunk : ByteStr) : ByteStr :=
  ⟨buf.size, chunk.val % 256 ^ chunk.size + buf.val / 256 ^ chunk.size * 256 ^ chunk.size⟩

/-- Set byte `i` of a byte string. -/
def ByteStr.setByte (s : ByteStr) (i b : Nat) : ByteStr :=
  ⟨s.size, s.val % 256 ^ i + b % 256 * 256 ^ i + s.val / 256 ^ (i + 1) * 256 ^ (i + 1)⟩

/-- Whether `pat` occurs in `l` starting at byte `i`. -/
def ByteStr.matchAt (l pat : ByteStr) (i : Nat) : Bool :=
  decide (i + pat.size ≤ l.size) && decide ((l.drop i).take pat.size = pat)

/-- First match of `pat` in `l` among the `n` start positions `i, i+1, …`,
by binary splitting (the fuel is only for termination; it is spent once
per halving, so callers pass any fuel of at least `n`). -/
def ByteStr.scanFirst (l pat : ByteStr) : Nat → Nat → Nat → Option Nat
  | _, _, 0 => none
  | 0, i, _ + 1 => if l.matchAt pat i then some i else none
  | fuel + 1, i, n + 1 =>
    if n = 0 then (if l.matchAt pat i then some i else none)
    else
      let h := (n + 1) / 2
      match ByteStr.scanFirst l pat fuel i h with
      | some j => some j
      | none => ByteStr.scanFirst l pat fuel (i + h) (n + 1 - h)

/-- Last match of `pat` in `l` among the `n` start positions `i, i+1, …`. -/
def ByteStr.scanLast (l pat : ByteStr) : Nat → Nat → Nat → Option Nat
  | _, _, 0 => none
  | 0, i, _ + 1 => if l.matchAt pat i then some i else none
  | fuel + 1, i, n + 1 =>
    if n = 0 then (if l.matchAt pat i then some i else none)
    else
      let h := (n + 1) / 2
      match ByteStr.scanLast l pat fuel (i + h) (n + 1 - h) with
      | some j => some j
      | none => ByteStr.scanLast l pat fuel i h

/-- `bytes.Index`: index of the first occurrence of `pat` in `l`, `none`
when absent (Go returns `-1`). -/
def indexOfSeq (l pat : ByteStr) : Option Nat :=
  if l.size < pat.size then none
  else ByteStr.scanFirst l pat (l.size - pat.size + 1) 0 (l.size - pat.size + 1)

/-- `bytes.LastIndex`: index of the last occurrence of `pat` in `l`. -/
def lastIndexOfSeq (l pat : ByteStr) : Option Nat :=
  if l.size < pat.size then none
  else ByteStr.scanLast l pat (l.size - pat.size + 1) 0 (l.size - pat.size + 1)

/-- A `bytes.Reader`: an immutable byte buffer and a read cursor. -/
structure BReader where
  data : ByteStr
  pos : Nat
deriving DecidableEq

/-- `bytes.Reader.Read` into a buffer of length `n`: returns `none` at
end of stream (`io.EOF`, checked before anything else, exactly as in
Go), otherwise up to `n` bytes (a short read is not an error). -/
def BReader.read (r : BReader) (n : Nat) : Option (ByteStr × BReader) :=
  if r.data.size ≤ r.pos then none
  else
    let k := min n (r.data.size - r.pos)
    some ((r.data.drop r.pos).take k, ⟨r.data, r.pos + k⟩)

/-- `io.ReadFull` / `binary.Read` of exactly `n` bytes: any shortfall is
an error (`io.EOF` or `io.ErrUnexpectedEOF`), modelled as `none`. -/
def BReader.readFull (r : BReader) (n : Nat) : Option (ByteStr × BReader) :=
  if r.pos + n ≤ r.data.size then some ((r.data.drop r.pos).take n, ⟨r.data, r.pos + n⟩)
  else none

/-- `Seek(off, io.SeekCurrent)`: an absolute position below zero is an
error; seeking past the end is allowed (later reads hit EOF). -/
def BReader.seekCur (r : BReader) (off : Int) : Option BReader :=
  if (r.pos : Int) + off < 0 then none
  else some ⟨r.data, ((r.pos : Int) + off).toNat⟩

/-- `Seek(off, io.SeekEnd)`. -/
def BReader.seekEnd (r : BReader) (off : Int) : Option BReader :=
  if (r.data.size : Int) + off < 0 then none
  else some ⟨r.data, ((r.data.size : Int) + off).toNat⟩

/-- `ioutil.ReadAll`: the remainder of the stream (empty at EOF, no
error possible on an in-memory reader). -/
def BReader.readAll (r : BReader) : ByteStr × BReader :=
  (r.data.drop r.pos, ⟨r.data, r.data.size⟩)

/-- Little-endian value of a byte string (`binary.LittleEndian`): the
packed value itself. -/
def leVal (s : ByteStr) : Nat := s.val

/-- Big-endian value of the `k`-byte string packed in `v` (helper). -/
def beValAux : Nat → Nat → Nat
  | 0, _ => 0
  | k + 1, v => v % 256 * 256 ^ k + beValAux k (v / 256)

/-- Big-endian value of a byte string (`binary.BigEndian`). -/
def beVal (s : ByteStr) : Nat := beValAux s.size s.val

/-- Bit-field extraction, MSB first: `extractFields ws v bits` splits the
`bits`-bit big-endian value `v` into fields of the widths `ws`, discarding
any slack bits after the last field. -/
def extractFields : List Nat → Nat → Nat → List Nat
  | [], _, _ => []
  | w :: ws, v, bits => (v / 2 ^ (bits - w)) % 2 ^ w :: extractFields ws v (bits - w)

/-- `bit.NewReader(r).ReadFields(ws...)` from the eaburns/bit package: a
fresh bit reader consumes exactly `ceil(sum ws / 8)` bytes from `r` (it
errors if the stream cannot supply them) and yields one unsigned field
per requested width, MSB first. -/
def readFields (ws : List Nat) (r : BReader) : Option (List Nat × BReader) :=
  let need := (ws.foldl (· + ·) 0 + 7) / 8
  match r.readFull need with
  | none => none
  | some (bs, r1) => some (extractFields ws (beVal bs) (need * 8), r1)

/-- Byte string of an ASCII string literal (helper for Go source string
constants). -/
def sbytesAux : List Char → ByteStr
  | [] => ByteStr.empty
  | c :: cs => ByteStr.cons c.toNat (sbytesAux cs)

/-- Byte string of an ASCII string literal. -/
def sbytes (s : String) : ByteStr := sbytesAux s.toList

/-- ASCII uppercase of one byte; models `strings.ToUpper` for the ASCII
tag keys this library handles. -/
def upperByte (b : Nat) : Nat := if 97 ≤ b ∧ b ≤ 122 then b - 32 else b

/-- ASCII uppercase of the `k`-byte string packed in `v` (helper). -/
def upperAux : Nat → Nat → Nat
  | 0, _ => 0
  | k + 1, v => upperByte (v % 256) + 256 * upperAux k (v / 256)

/-- ASCII uppercase of a byte string. -/
def upperBytes (s : ByteStr) : ByteStr := ⟨s.size, upperAux s.size s.val⟩

/-- A Go `map[string]string`, as an association list with unique keys. -/
def Tags : Type := List (ByteStr × ByteStr)

instance : DecidableEq Tags := by unfold Tags; infer_instance

/-- Go map assignment `m[k] = v`: replace an existing entry or append. -/
def mapInsert (m : Tags) (k v : ByteStr) : Tags :=
  match m with
  | [] => [(k, v)]
  | (k1, v1) :: rest =>
      if k1 = k then (k, v) :: rest else (k1, v1) :: mapInsert rest k v

/-- Go map read `m[k]`: the zero value `""` if `k` is absent. -/
def mapLookup (m : Tags) (k : ByteStr) : ByteStr :=
  match m with
  | [] => ByteStr.empty
  | (k1, v1) :: rest => if k1 = k then v1 else mapLookup rest k

/-- Whether a key is present in the map (`_, ok := m[k]`). -/
def mapFind? (m : Tags) (k : ByteStr) : Option ByteStr :=
  match m with
  | [] => none
  | (k1, v1) :: rest => if k1 = k then some v1 else mapFind? rest k

/-- Bytes of the `k`-byte string packed in `v` before the first `sep`
(helper). -/
def splitHeadAux (sep : Nat) : Nat → Nat → ByteStr
  | 0, _ => ByteStr.empty
  | k + 1, v =>
    if v % 256 = sep then ByteStr.empty
    else ByteStr.cons (v % 256) (splitHeadAux sep k (v / 256))

/-- The element of `strings.Split(s, sep)` before the first separator
(`Split(...)[0]`), for a one-byte separator. -/
def splitHead (sep : Nat) (s : ByteStr) : ByteStr := splitHeadAux sep s.size s.val

/-- The remainder after the first `sep` of the `k`-byte string packed in
`v`, or `none` when `sep` is absent (helper). -/
def dropSepAux (sep : Nat) : Nat → Nat → Option ByteStr
  | 0, _ => none
  | k + 1, v =>
    if v % 256 = sep then some ⟨k, v / 256⟩ else dropSepAux sep k (v / 256)

/-- The element of `strings.Split(s, sep)` between the first and second
separators (`Split(...)[1]`), or `none` when the separator is absent and
indexing `[1]` would panic. -/
def splitSecond? (sep : Nat) (s : ByteStr) : Option ByteStr :=
  (dropSepAux sep s.size s.val).map (fun t => splitHead sep t)

/-- Decimal value of the `k`-digit ASCII string packed in `v`, digit by
digit from the left, exactly as `strconv.Atoi` accumulates it (helper). -/
def asciiValAux : Nat → Nat → Nat → Nat
  | 0, _, acc => acc
  | k + 1, v, acc => asciiValAux k (v / 256) (acc * 10 + (v % 256 - 48))

/-- Decimal value of a run of ASCII digits. -/
def asciiVal (s : ByteStr) : Nat := asciiValAux s.size s.val 0

/-- Whether all of the `k` bytes packed in `v` are ASCII digits (helper). -/
def allDigits : Nat → Nat → Bool
  | 0, _ => true
  | k + 1, v => (decide (48 ≤ v % 256) && decide (v % 256 ≤ 57)) && allDigits k (v / 256)

/-- `strconv.Atoi`: optional sign, then one or more decimal digits, and
the value must fit a 64-bit `int`; anything else is an error (`none`).
The source only ever tests `err != nil`, so `none` covers both
`ErrSyntax` and `ErrRange`. -/
def atoi? (s : ByteStr) : Option Int :=
  if s.size = 0 then none
  else
    let c := s.byteAt 0
    let ds := if c = 43 ∨ c = 45 then s.drop 1 else s
    if ds.size = 0 then none
    else if allDigits ds.size ds.val then
      let v := asciiVal ds
      if c = 45 then (if v ≤ 2 ^ 63 then some (-(v : Int)) else none)
      else if v < 2 ^ 63 then some (v : Int) else none
    else none

/-- Lowercase hex digit byte of a value below 16 (`fmt.Sprintf("%x", ...)`). -/
def hexDigit (n : Nat) : Nat := if n < 10 then 48 + n else 87 + n

/-- Lowercase hex rendering of the `k`-byte string packed in `v`
(helper). -/
def hexAux : Nat → Nat → ByteStr
  | 0, _ => ByteStr.empty
  | k + 1, v =>
    ByteStr.cons (hexDigit (v % 256 / 16))
      (ByteStr.cons (hexDigit (v % 256 % 16)) (hexAux k (v / 256)))

/-- Lowercase hex rendering of a byte string (`fmt.Sprintf("%x", bs)`). -/
def hexBytes (s : ByteStr) : ByteStr := hexAux s.size s.val

/-- Signed 64-bit reinterpretation of a `uint64` value (Go conversion
`int64(u)`). -/
def toInt64 (n : Nat) : Int :=
  let m : Nat := n % 2 ^ 64
  if m < 2 ^ 63 then (m : Int) else (m : Int) - 2 ^ 64

/-- Wrapping of a signed 64-bit arithmetic result (Go `int64` overflow
semantics, e.g. the `* time.Second` multiply on a `time.Duration`). -/
def wrapInt64 (z : Int) : Int :=
  let m := z % (2 ^ 64 : Int)
  if m < 2 ^ 63 then m else m - 2 ^ 64

/-- The three domain error classifications of taggolib
(`ErrUnknownFormat`, `ErrUnsupportedVersion`, `ErrInvalidStream`; some
snapshots wrap them in a `TagError` carrying format and detail strings,
which does not change the classification), plus the distinct I/O error
kind that short reads and failed seeks propagate. -/
inductive ErrKind where
  | unknownFormat
  | unsupportedVersion
  | invalidStream
  | ioError
deriving DecidableEq

/-- Outcome of a Go computation that can return a value, return an
error, or panic at runtime. -/
inductive PRes (α : Type) where
  | ok : α → PRes α
  | err : ErrKind → PRes α
  | panicked : PRes α
deriving DecidableEq

/-- The error classification of a result, if it is an error. -/
def errKindOf {α : Type} : PRes α → Option ErrKind
  | .ok _ => none
  | .err e => some e
  | .panicked => none

example : sbytes ("OggS") = ⟨4, 79 + 256 * (103 + 256 * (103 + 256 * 83))⟩ := by decide
example : atoi? (sbytes ("1")) = some 1 := by decide
example : atoi? (sbytes ("1/12")) = none := by decide
example : atoi? (sbytes ("-42")) = some (-42) := by decide
example : atoi? ByteStr.empty = none := by decide
example : splitHead 47 (sbytes ("2/8")) = sbytes ("2") := by decide
example : splitSecond? 61 (sbytes ("A=B=C")) = some (sbytes ("B")) := by decide
example : splitSecond? 61 (sbytes ("AB")) = none := by decide
example : upperBytes (sbytes ("aRtIsT")) = sbytes ("ARTIST") := by decide
example : indexOfSeq (sbytes ("abcabc")) (sbytes ("bc")) = some 1 := by decide
example : lastIndexOfSeq (sbytes ("abOggSxxOggSy")) (sbytes ("OggS")) = some 8 := by decide
example : indexOfSeq (sbytes ("abcabc")) (sbytes ("zz")) = none := by decide
example : beVal (sbytes ("AB")) = 65 * 256 + 66 := by decide
example : leVal (sbytes ("AB")) = 65 + 256 * 66 := by decide
example : hexBytes ⟨2, 171 + 256 * 1⟩ = sbytes ("ab01") := by decide

instance : Append ByteStr := ⟨ByteStr.append⟩

/-! ### Source constants (taggolib.go, flac.go, mp3.go, ogg.go) -/

/-- Magic number of a FLAC stream. -/
def flacMagicNumber : ByteStr := sbytes ("fLaC")

/-- Magic number of an MP3 (ID3v2) stream. -/
def mp3MagicNumber : ByteStr := sbytes ("ID3")

/-- Magic number (capture pattern) of an Ogg stream. -/
def oggMagicNumber : ByteStr := sbytes ("OggS")

/-- The word that opens every Vorbis header packet. -/
def oggVorbisWord : ByteStr := sbytes ("vorbis")

/-- Name of the attached-picture ID3v2 frame. -/
def mp3APICFrame : ByteStr := sbytes ("APIC")

/-- Marker of a Xing VBR header. -/
def mp3XingMarker : ByteStr := sbytes ("Xing")

/-- Marker of an Info VBR header. -/
def mp3InfoMarker : ByteStr := sbytes ("Info")

/-- Samples per frame for MPEG1 Layer III. -/
def mp3SamplesPerFrame : Nat := 1152

/-- Built-in tag name constant `ALBUM` of taggolib.go. -/
def tagAlbum : ByteStr := sbytes ("ALBUM")

/-- Tag name `ALBUMARTIST`. -/
def tagAlbumArtist : ByteStr := sbytes ("ALBUMARTIST")

/-- Tag name `ARTIST`. -/
def tagArtist : ByteStr := sbytes ("ARTIST")

/-- Tag name `COMMENT`. -/
def tagComment : ByteStr := sbytes ("COMMENT")

/-- Tag name `DATE`. -/
def tagDate : ByteStr := sbytes ("DATE")

/-- Tag name `DISCNUMBER`. -/
def tagDiscNumber : ByteStr := sbytes ("DISCNUMBER")

/-- Tag name `GENRE`. -/
def tagGenre : ByteStr := sbytes ("GENRE")

/-- Tag name `TITLE`. -/
def tagTitle : ByteStr := sbytes ("TITLE")

/-- Tag name `TRACKNUMBER`. -/
def tagTrackNumber : ByteStr := sbytes ("TRACKNUMBER")

/-- MP3-specific tag name `ENCODER` (mp3TagEncoder). -/
def mp3TagEncoder : ByteStr := sbytes ("ENCODER")

/-- MP3-specific tag name `LENGTH` (mp3TagLength). -/
def mp3TagLength : ByteStr := sbytes ("LENGTH")

/-! ### FLAC parser (flac.go: the `FLACParser` with `parseMetadataHeader`,
`parseProperties`, `parseTags`) -/

/-- Header of a FLAC metadata block. -/
structure flacMetadataHeader where
  lastBlock : Bool
  blockType : Nat
  blockLength : Nat
deriving DecidableEq

/-- Properties from a FLAC STREAMINFO block. -/
structure flacStreamInfoBlock where
  minBlockSize : Nat
  maxBlockSize : Nat
  minFrameSize : Nat
  maxFrameSize : Nat
  sampleRate : Nat
  channelCount : Nat
  bitsPerSample : Nat
  sampleCount : Nat
  md5Checksum : ByteStr
deriving DecidableEq

/-- A parsed FLAC stream. -/
structure FLACParser where
  encoder : ByteStr
  properties : flacStreamInfoBlock
  reader : BReader
  tags : Tags
deriving DecidableEq

/-- `FLACParser.parseMetadataHeader`: bit fields 1 (last block), 7 (block
type), 24 (block length). -/
def FLACParser.parseMetadataHeader (r : BReader) : PRes (flacMetadataHeader × BReader) :=
  match readFields [1, 7, 24] r with
  | none => .err .ioError
  | some (fields, r1) =>
      .ok (⟨fields.getD 0 0 = 1, fields.getD 1 0, fields.getD 2 0⟩, r1)

/-- `FLACParser.parseProperties`: the first metadata block must be a
STREAMINFO block (type 0) that is not the last block, else
`ErrInvalidStream`; then bit fields 16, 16, 24, 24, 20, 3, 5, 36 and a
16-byte MD5 checksum (whose read error is coerced to `ErrInvalidStream`
by the source; a short read leaves zero bytes in the fresh buffer).
`uint16(fields[4])` truncates the 20-bit sample rate; channel count and
bit depth are stored plus one, in `uint8` and `uint16` arithmetic. -/
def FLACParser.parseProperties (r : BReader) : PRes (flacStreamInfoBlock × BReader) :=
  match FLACParser.parseMetadataHeader r with
  | .err e => .err e
  | .panicked => .panicked
  | .ok (header, r1) =>
    if header.lastBlock ∨ header.blockType ≠ 0 then .err .invalidStream
    else
      match readFields [16, 16, 24, 24, 20, 3, 5, 36] r1 with
      | none => .err .ioError
      | some (fields, r2) =>
        match r2.read 16 with
        | none => .err .invalidStream
        | some (got, r3) =>
          let checksum := (ByteStr.zeros 16).overwrite got
          .ok (⟨fields.getD 0 0, fields.getD 1 0, fields.getD 2 0, fields.getD 3 0,
                fields.getD 4 0 % 2 ^ 16,
                (fields.getD 5 0 % 256 + 1) % 256,
                (fields.getD 6 0 % 2 ^ 16 + 1) % 2 ^ 16,
                fields.getD 7 0,
                hexBytes checksum⟩, r3)

/-- The block-scanning loop of `FLACParser.parseTags`: parse metadata
headers until a VORBIS_COMMENT block (type 4) is found (`(true, reader)`)
or the last block passes without one (`(false, reader)`); any other
block is skipped by reading its declared length into a fresh buffer.
The fuel argument only bounds the recursion; every iteration consumes at
least the four header bytes, so the zero-fuel branch is unreachable from
`FLACParser.parseTags`. -/
def FLACParser.findVorbisComment : Nat → BReader → PRes (Bool × BReader)
  | 0, _ => .err .ioError
  | fuel + 1, r =>
    match FLACParser.parseMetadataHeader r with
    | .err e => .err e
    | .panicked => .panicked
    | .ok (header, r1) =>
      if header.blockType = 4 then .ok (true, r1)
      else if header.lastBlock then .ok (false, r1)
      else
        match r1.read header.blockLength with
        | none => .err .ioError
        | some (_, r2) => FLACParser.findVorbisComment fuel r2

/-- The comment-reading loop of `FLACParser.parseTags`: for each
comment, a 32-bit little-endian length, then that many bytes of
`KEY=VALUE` (a short read leaves trailing zero bytes in the freshly
allocated buffer); the key is uppercased and the value is the second
`=`-separated field (`pair[1]`, which panics when the text contains no
`=`). -/
def FLACParser.parseTagsLoop : Nat → Tags → BReader → PRes (Tags × BReader)
  | 0, m, r => .ok (m, r)
  | k + 1, m, r =>
    match r.readFull 4 with
    | none => .err .ioError
    | some (lenBytes, r1) =>
      let tagLength := leVal lenBytes
      match r1.read tagLength with
      | none => .err .ioError
      | some (got, r2) =>
        let tagBuf := (ByteStr.zeros tagLength).overwrite got
        match splitSecond? 61 tagBuf with
        | none => .panicked
        | some v =>
            FLACParser.parseTagsLoop k (mapInsert m (upperBytes (splitHead 61 tagBuf)) v) r2

/-- `FLACParser.parseTags`: scan to the VORBIS_COMMENT block (no such
block is not an error: no tags, no vendor); then 32-bit little-endian
vendor length, vendor string (stored as the encoder; a short read leaves
zero bytes), 32-bit little-endian comment count, and the comments. -/
def FLACParser.parseTags (r : BReader) : PRes (ByteStr × Tags × BReader) :=
  match FLACParser.findVorbisComment (r.data.size + 1) r with
  | .err e => .err e
  | .panicked => .panicked
  | .ok (false, r1) => .ok (ByteStr.empty, [], r1)
  | .ok (true, r1) =>
    match r1.readFull 4 with
    | none => .err .ioError
    | some (vl, r2) =>
      let vendorLength := leVal vl
      match r2.read vendorLength with
      | none => .err .ioError
      | some (got, r3) =>
        let vendor := (ByteStr.zeros vendorLength).overwrite got
        match r3.readFull 4 with
        | none => .err .ioError
        | some (cl, r4) =>
          match FLACParser.parseTagsLoop (leVal cl) [] r4 with
          | .err e => .err e
          | .panicked => .panicked
          | .ok (tags, r5) => .ok (vendor, tags, r5)

/-- `newFLACParser` (called by `New` after the magic number is
consumed): parse properties, then tags. -/
def newFLACParser (r : BReader) : PRes FLACParser :=
  match FLACParser.parseProperties r with
  | .err e => .err e
  | .panicked => .panicked
  | .ok (props, r1) =>
    match FLACParser.parseTags r1 with
    | .err e => .err e
    | .panicked => .panicked
    | .ok (vendor, tags, r2) => .ok ⟨vendor, props, r2, tags⟩

/-- `FLACParser.Album`. -/
def FLACParser.Album (f : FLACParser) : ByteStr := mapLookup f.tags tagAlbum

/-- `FLACParser.AlbumArtist`. -/
def FLACParser.AlbumArtist (f : FLACParser) : ByteStr := mapLookup f.tags tagAlbumArtist

/-- `FLACParser.Artist`. -/
def FLACParser.Artist (f : FLACParser) : ByteStr := mapLookup f.tags tagArtist

/-- `FLACParser.BitDepth`. -/
def FLACParser.BitDepth (f : FLACParser) : Nat := f.properties.bitsPerSample

/-- `FLACParser.Channels`. -/
def FLACParser.Channels (f : FLACParser) : Nat := f.properties.channelCount

/-- `FLACParser.Checksum`. -/
def FLACParser.Checksum (f : FLACParser) : ByteStr := f.properties.md5Checksum

/-- `FLACParser.Comment`. -/
def FLACParser.Comment (f : FLACParser) : ByteStr := mapLookup f.tags tagComment

/-- `FLACParser.Date`. -/
def FLACParser.Date (f : FLACParser) : ByteStr := mapLookup f.tags tagDate

/-- `FLACParser.Duration`, in whole seconds: the source computes
`time.Duration(int64(SampleCount) / int64(SampleRate())) * time.Second`
with 64-bit signed division; division by a zero sample rate is a Go
runtime panic, modelled as `none`. -/
def FLACParser.DurationSec (f : FLACParser) : Option Int :=
  if f.properties.sampleRate = 0 then none
  else some (Int.tdiv (toInt64 f.properties.sampleCount) (f.properties.sampleRate : Int))

/-- `FLACParser.Encoder`. -/
def FLACParser.Encoder (f : FLACParser) : ByteStr := f.encoder

/-- `FLACParser.Format`. -/
def FLACParser.Format (_ : FLACParser) : ByteStr := sbytes ("FLAC")

/-- `FLACParser.Genre`. -/
def FLACParser.Genre (f : FLACParser) : ByteStr := mapLookup f.tags tagGenre

/-- `FLACParser.SampleRate`. -/
def FLACParser.SampleRate (f : FLACParser) : Nat := f.properties.sampleRate

/-- `FLACParser.Tag`: raw lookup, uppercasing the caller's key. -/
def FLACParser.Tag (f : FLACParser) (name : ByteStr) : ByteStr :=
  mapLookup f.tags (upperBytes name)

/-- `FLACParser.Title`. -/
def FLACParser.Title (f : FLACParser) : ByteStr := mapLookup f.tags tagTitle

/-- `FLACParser.TrackNumber`: `strconv.Atoi` on the raw tag, 0 on any
error.  Unlike the MP3 and Ogg parsers, this one does not split on `/`. -/
def FLACParser.TrackNumber (f : FLACParser) : Int :=
  match atoi? (mapLookup f.tags tagTrackNumber) with
  | none => 0
  | some track => track

/-! ### MP3 parser (mp3.go: `mp3Parser`) -/

/-- The MP3 ID3v2 header. -/
structure mp3ID3v2Header where
  majorVersion : Nat
  minorVersion : Nat
  unsynchronization : Bool
  extended : Bool
  experimental : Bool
  footer : Bool
  size : Nat
deriving DecidableEq

/-- An MPEG audio frame header (`mp3Header` in the source; the field
names `Protected`/`Private` are renamed to avoid Lean keywords). -/
structure mp3Header where
  mpegVersionID : Nat
  mpegLayerID : Nat
  protectedBit : Bool
  bitrate : Nat
  sampleRate : Nat
  padding : Bool
  privateBit : Bool
  channelMode : Nat
  modeExtension : Nat
  copyright : Bool
  original : Bool
  emphasis : Nat
deriving DecidableEq

/-- Data from a Xing/Info VBR header.  `duration` (seconds) and
`bitrate` (kbps) are the source's derived `int` fields. -/
structure mp3XingHeader where
  frameCount : Nat
  streamSize : Nat
  duration : Nat
  bitrate : Nat
deriving DecidableEq

/-- A parsed MP3 stream (`mp3Parser`; the header field is renamed
`mp3Hdr` because the source's field name collides with its type name). -/
structure mp3Parser where
  id3Header : mp3ID3v2Header
  mp3Hdr : mp3Header
  reader : BReader
  tags : Tags
  xingHeader : Option mp3XingHeader
deriving DecidableEq

/-- `mp3ID3v2FrameToTag`: frame title to canonical tag name; a missing
entry yields the Go zero value `""`. -/
def mp3ID3v2FrameToTag (k : ByteStr) : ByteStr :=
  if k = sbytes ("TAL") then tagAlbum
  else if k = sbytes ("TRK") then tagTrackNumber
  else if k = sbytes ("TP1") then tagArtist
  else if k = sbytes ("TP2") then tagAlbumArtist
  else if k = sbytes ("TT2") then tagTitle
  else if k = sbytes ("TYE") then tagDate
  else if k = sbytes ("TPA") then tagDiscNumber
  else if k = sbytes ("TCO") then tagGenre
  else if k = sbytes ("COMM") then tagComment
  else if k = sbytes ("TALB") then tagAlbum
  else if k = sbytes ("TCON") then tagGenre
  else if k = sbytes ("TDRC") then tagDate
  else if k = sbytes ("TIT2") then tagTitle
  else if k = sbytes ("TLEN") then mp3TagLength
  else if k = sbytes ("TPE1") then tagArtist
  else if k = sbytes ("TPE2") then tagAlbumArtist
  else if k = sbytes ("TPOS") then tagDiscNumber
  else if k = sbytes ("TRCK") then tagTrackNumber
  else if k = sbytes ("TSSE") then mp3TagEncoder
  else if k = sbytes ("TYER") then tagDate
  else ByteStr.empty

/-- `mp3BitrateMap` (MPEG1 Layer III), missing keys giving the zero
value. -/
def mp3BitrateMap (k : Nat) : Nat :=
  if k = 1 then 32 else if k = 2 then 40 else if k = 3 then 48
  else if k = 4 then 56 else if k = 5 then 64 else if k = 6 then 80
  else if k = 7 then 96 else if k = 8 then 112 else if k = 9 then 128
  else if k = 10 then 160 else if k = 11 then 192 else if k = 12 then 224
  else if k = 13 then 256 else if k = 14 then 320 else 0

/-- `mp3SampleRateMap` (MPEG1 Layer III), missing keys giving the zero
value. -/
def mp3SampleRateMap (k : Nat) : Nat :=
  if k = 0 then 44100 else if k = 1 then 48000 else if k = 2 then 32000 else 0

/-- `mp3ChannelModeMap`: entries only for keys 0, 1, 3 and 4; any other
channel-mode value (in particular 2, a value the 2-bit field can carry)
gives the zero value 0. -/
def mp3ChannelModeMap (k : Nat) : Nat :=
  if k = 0 then 2 else if k = 1 then 2 else if k = 3 then 2
  else if k = 4 then 1 else 0

/-- `mp3Parser.parseID3v2Header`: bit fields 8, 8, 1, 1, 1, 1, 4, 32; a
major version outside [2, 4] is `ErrUnsupportedVersion` (wrapped in a
`TagError`); a footer flag before version 4 is `ErrInvalidStream`; an
extended header is skipped via its 32-bit big-endian size. -/
def mp3Parser.parseID3v2Header (r : BReader) : PRes (mp3ID3v2Header × BReader) :=
  match readFields [8, 8, 1, 1, 1, 1, 4, 32] r with
  | none => .err .ioError
  | some (fields, r1) =>
    let hdr : mp3ID3v2Header :=
      ⟨fields.getD 0 0, fields.getD 1 0, fields.getD 2 0 = 1, fields.getD 3 0 = 1,
       fields.getD 4 0 = 1, fields.getD 5 0 = 1, fields.getD 7 0⟩
    if hdr.majorVersion < 2 ∨ 4 < hdr.majorVersion then .err .unsupportedVersion
    else if hdr.majorVersion < 4 ∧ hdr.footer then .err .invalidStream
    else if hdr.extended then
      match r1.readFull 4 with
      | none => .err .ioError
      | some (bs, r2) =>
        match r2.seekCur ((beVal bs : Int) - 4) with
        | none => .err .ioError
        | some r3 => .ok (hdr, r3)
    else .ok (hdr, r1)

/-- The frame loop of `mp3Parser.parseID3v2Frames`.  State: the reused
frame-title buffer (3 bytes for ID3v2.2, else 4) and the reused
2048-byte tag buffer, both keeping stale bytes after short reads exactly
as the source's shared slices do; the tag map; and the reader.  A frame
title starting with byte 0 is padding (stop); byte 255 is the MP3 header
(read ahead up to 2048 bytes and replace the reader by an in-memory
reader over title + buffer); otherwise read the frame length (24-bit big
endian read into the tag buffer for v2.2; a 32-bit big-endian value plus
two flag bytes to skip for v2.3+), seek past APIC or oversized frames,
else read the payload (`tagBuf[1:n]` panics when the frame length is 0
and the stream is not at EOF, since then `n = 0`), strip one trailing
NUL then one leading `0xFF 0xFE`, and store it under the mapped tag
name.  Fuel only bounds the recursion: every iteration advances the
reader, so the zero-fuel branch is unreachable from
`mp3Parser.parseID3v2Frames`. -/
def mp3Parser.parseID3v2FramesLoop :
    Nat → Bool → ByteStr → ByteStr → Tags → BReader → PRes (Tags × BReader)
  | 0, _, _, _, _, _ => .err .ioError
  | fuel + 1, isV2, frameBuf, tagBuf, m, r =>
    match r.read frameBuf.size with
    | none => .err .ioError
    | some (got, r1) =>
      let frameBuf := frameBuf.overwrite got
      if frameBuf.byteAt 0 = 0 then .ok (m, r1)
      else if frameBuf.byteAt 0 = 255 then
        match r1.read 2048 with
        | none => .err .ioError
        | some (got2, _) =>
          let tagBuf := tagBuf.overwrite got2
          .ok (m, ⟨frameBuf ++ tagBuf, 0⟩)
      else
        match
          (if isV2 then
            match r1.read 3 with
            | none => none
            | some (got3, r2) =>
              let tb := tagBuf.overwrite got3
              some (tb.byteAt 0 * 65536 + tb.byteAt 1 * 256 + tb.byteAt 2, tb, r2)
          else
            match r1.readFull 4 with
            | none => none
            | some (bs, r2) =>
              match r2.seekCur 2 with
              | none => none
              | some r3 => some (beVal bs, tagBuf, r3)) with
        | none => .err .ioError
        | some (frameLength, tagBuf, r2) =>
          if frameBuf = mp3APICFrame ∨ 2048 < frameLength then
            match r2.seekCur (frameLength : Int) with
            | none => .err .ioError
            | some r3 => mp3Parser.parseID3v2FramesLoop fuel isV2 frameBuf tagBuf m r3
          else
            match r2.read frameLength with
            | none => .err .ioError
            | some (got4, r3) =>
              let n := got4.size
              let tagBuf := tagBuf.overwrite got4
              if n = 0 then .panicked
              else
                let afterSuffix :=
                  let s := (tagBuf.take n).drop 1
                  if s.size ≠ 0 ∧ s.byteAt (s.size - 1) = 0 then s.take (s.size - 1) else s
                let tag :=
                  if afterSuffix.take 2 = ⟨2, 255 + 256 * 254⟩ then afterSuffix.drop 2
                  else afterSuffix
                mp3Parser.parseID3v2FramesLoop fuel isV2 frameBuf tagBuf
                  (mapInsert m (mp3ID3v2FrameToTag frameBuf) tag) r3

/-- `mp3Parser.parseID3v2Frames`: run the frame loop with fresh
zero-filled buffers. -/
def mp3Parser.parseID3v2Frames (isV2 : Bool) (r : BReader) : PRes (Tags × BReader) :=
  mp3Parser.parseID3v2FramesLoop (r.data.size + 1) isV2
    (ByteStr.zeros (if isV2 then 3 else 4)) (ByteStr.zeros 2048) [] r

/-- The header-search loop of `mp3Parser.parseMP3Header`: read 4096-byte
chunks into the reused buffer (short reads keep stale bytes) until the
buffer starts with byte 255 (pre-seeded by the frame parser) or contains
byte 255 somewhere, in which case 64 further bytes are read (into a
fresh zero-filled buffer) and the buffer is re-sliced so the frame
header is at offset 0.  Fuel only bounds the recursion; every iteration
advances the reader. -/
def mp3Parser.findFrameBufLoop : Nat → ByteStr → BReader → PRes (ByteStr × BReader)
  | 0, _, _ => .err .ioError
  | fuel + 1, headerBuf, r =>
    match r.read 4096 with
    | none => .err .ioError
    | some (got, r1) =>
      let headerBuf := headerBuf.overwrite got
      if headerBuf.byteAt 0 = 255 then .ok (headerBuf, r1)
      else
        match indexOfSeq headerBuf ⟨1, 255⟩ with
        | some index =>
          match r1.read 64 with
          | none => .err .ioError
          | some (got2, r2) =>
            let tempBuf := (ByteStr.zeros 64).overwrite got2
            .ok (headerBuf.drop index ++ tempBuf, r2)
        | none => mp3Parser.findFrameBufLoop fuel headerBuf r1

/-- The buffer `mp3Parser.parseMP3Header` decodes the MPEG frame header
from and searches for the Xing/Info markers. -/
def mp3Parser.findFrameBuf (r : BReader) : PRes (ByteStr × BReader) :=
  mp3Parser.findFrameBufLoop (r.data.size + 1) (ByteStr.zeros 4096) r

/-- `mp3Parser.parseMP3Header`: find the frame-header buffer, decode bit
fields 11, 2, 2, 1, 4, 2, 1, 1, 2, 2, 1, 1, 2 from it (through a fresh
`bytes.Reader`, so the stream itself is not consumed), require MPEG
version ID 3 and layer ID 1 (else `ErrUnsupportedVersion`), then search
the buffer for a `Xing` or `Info` marker.  Without one the parse
succeeds with no Xing header.  With one, skip marker plus 4 flag bytes,
then read two 32-bit big-endian values (slicing panics when fewer than 8
bytes remain).  The source derives duration and bitrate via `float64`
arithmetic (`duration = (1152 / sampleRate) * frameCount`,
`bitrate = streamSize*8 / duration / 1000`, clamped to 320); this model
uses truncating natural division, and maps the division-by-zero cases
(which in `float64` give infinities whose `int` conversion is
platform-dependent and never positive, hence ignored by `Bitrate()`) to
0.  No claim proved below depends on the rounding of these two derived
values. -/
def mp3Parser.parseMP3Header (r : BReader) : PRes (mp3Header × Option mp3XingHeader × BReader) :=
  match mp3Parser.findFrameBuf r with
  | .err e => .err e
  | .panicked => .panicked
  | .ok (headerBuf, r1) =>
    match readFields [11, 2, 2, 1, 4, 2, 1, 1, 2, 2, 1, 1, 2] ⟨headerBuf, 0⟩ with
    | none => .err .ioError
    | some (fields, _) =>
      let hdr : mp3Header :=
        ⟨fields.getD 1 0, fields.getD 2 0, fields.getD 3 0 = 0, fields.getD 4 0,
         fields.getD 5 0, fields.getD 6 0 = 1, fields.getD 7 0 = 1, fields.getD 8 0,
         fields.getD 9 0, fields.getD 10 0 = 1, fields.getD 11 0 = 1, fields.getD 12 0⟩
      if hdr.mpegVersionID ≠ 3 then .err .unsupportedVersion
      else if hdr.mpegLayerID ≠ 1 then .err .unsupportedVersion
      else
        match
          (match indexOfSeq headerBuf mp3XingMarker with
           | some index => some index
           | none => indexOfSeq headerBuf mp3InfoMarker) with
        | none => .ok (hdr, none, r1)
        | some index =>
          let rest := headerBuf.drop (index + 8)
          if rest.size < 8 then .panicked
          else
            let frameCount := beVal (rest.take 4)
            let streamSize := beVal ((rest.drop 4).take 4)
            let sr := mp3SampleRateMap hdr.sampleRate
            let dur := if sr = 0 then 0 else mp3SamplesPerFrame * frameCount / sr
            let ss8 := streamSize * 8 % 2 ^ 32
            let br0 := if dur = 0 then 0 else ss8 / dur / 1000
            let br := if 320 < br0 then 320 else br0
            .ok (hdr, some ⟨frameCount, streamSize, dur, br⟩, r1)

/-- `newMP3Parser` (called by `New` after the `ID3` magic is consumed). -/
def newMP3Parser (r : BReader) : PRes mp3Parser :=
  match mp3Parser.parseID3v2Header r with
  | .err e => .err e
  | .panicked => .panicked
  | .ok (id3, r1) =>
    match mp3Parser.parseID3v2Frames (id3.majorVersion = 2) r1 with
    | .err e => .err e
    | .panicked => .panicked
    | .ok (tags, r2) =>
      match mp3Parser.parseMP3Header r2 with
      | .err e => .err e
      | .panicked => .panicked
      | .ok (hdr, xing, r3) => .ok ⟨id3, hdr, r3, tags, xing⟩

/-- `mp3Parser.Album`. -/
def mp3Parser.Album (m : mp3Parser) : ByteStr := mapLookup m.tags tagAlbum

/-- `mp3Parser.AlbumArtist`. -/
def mp3Parser.AlbumArtist (m : mp3Parser) : ByteStr := mapLookup m.tags tagAlbumArtist

/-- `mp3Parser.Artist`. -/
def mp3Parser.Artist (m : mp3Parser) : ByteStr := mapLookup m.tags tagArtist

/-- `mp3Parser.BitDepth` (always 16). -/
def mp3Parser.BitDepth (_ : mp3Parser) : Nat := 16

/-- `mp3Parser.Bitrate`: the Xing header's bitrate when present and
positive, else the bitrate-map value for the frame header's index. -/
def mp3Parser.Bitrate (m : mp3Parser) : Nat :=
  match m.xingHeader with
  | some x => if 0 < x.bitrate then x.bitrate else mp3BitrateMap m.mp3Hdr.bitrate
  | none => mp3BitrateMap m.mp3Hdr.bitrate

/-- `mp3Parser.Channels`. -/
def mp3Parser.Channels (m : mp3Parser) : Nat := mp3ChannelModeMap m.mp3Hdr.channelMode

/-- `mp3Parser.Comment`. -/
def mp3Parser.Comment (m : mp3Parser) : ByteStr := mapLookup m.tags tagComment

/-- `mp3Parser.Date`. -/
def mp3Parser.Date (m : mp3Parser) : ByteStr := mapLookup m.tags tagDate

/-- `mp3Parser.DiscNumber`. -/
def mp3Parser.DiscNumber (m : mp3Parser) : Int :=
  match atoi? (mapLookup m.tags tagDiscNumber) with
  | none => 0
  | some disc => disc

/-- `mp3Parser.Duration`, in whole seconds: the Xing header's duration
when present and positive, else the `LENGTH` tag (milliseconds) divided
by 1000 with Go's truncating `int` division, else 0. -/
def mp3Parser.DurationSec (m : mp3Parser) : Int :=
  match m.xingHeader with
  | some x =>
    if 0 < x.duration then (x.duration : Int)
    else
      match atoi? (mapLookup m.tags mp3TagLength) with
      | none => 0
      | some length => Int.tdiv length 1000
  | none =>
    match atoi? (mapLookup m.tags mp3TagLength) with
    | none => 0
    | some length => Int.tdiv length 1000

/-- `mp3Parser.Encoder`. -/
def mp3Parser.Encoder (m : mp3Parser) : ByteStr := mapLookup m.tags mp3TagEncoder

/-- `mp3Parser.Format`. -/
def mp3Parser.Format (_ : mp3Parser) : ByteStr := sbytes ("MP3")

/-- `mp3Parser.Genre`. -/
def mp3Parser.Genre (m : mp3Parser) : ByteStr := mapLookup m.tags tagGenre

/-- `mp3Parser.SampleRate`. -/
def mp3Parser.SampleRate (m : mp3Parser) : Nat := mp3SampleRateMap m.mp3Hdr.sampleRate

/-- `mp3Parser.Tag`: raw lookup (no key normalization in this parser). -/
def mp3Parser.Tag (m : mp3Parser) (name : ByteStr) : ByteStr := mapLookup m.tags name

/-- `mp3Parser.Title`. -/
def mp3Parser.Title (m : mp3Parser) : ByteStr := mapLookup m.tags tagTitle

/-- `mp3Parser.TrackNumber`: `strconv.Atoi` of the text before the first
`/` of the raw tag, 0 on any error. -/
def mp3Parser.TrackNumber (m : mp3Parser) : Int :=
  match atoi? (splitHead 47 (mapLookup m.tags tagTrackNumber)) with
  | none => 0
  | some track => track

/-! ### Ogg Vorbis parser (ogg.go: `oggParser`; the `oggVorbisParser`
snapshot in flac.go is the same code with errors wrapped in `TagError`) -/

/-- An Ogg Vorbis identification header. -/
structure oggIDHeader where
  vorbisVersion : Nat
  channelCount : Nat
  sampleRate : Nat
  maxBitrate : Nat
  nomBitrate : Nat
  minBitrate : Nat
  blocksize0 : Nat
  blocksize1 : Nat
  framing : Bool
deriving DecidableEq

/-- An Ogg page header. -/
structure oggPageHeader where
  capturePattern : ByteStr
  version : Nat
  headerType : Nat
  granulePosition : Nat
  bitstreamSerial : Nat
  pageSequence : Nat
  checksum : ByteStr
  pageSegments : Nat
deriving DecidableEq

/-- The mutable pieces of an `oggParser` that the parsing phases thread:
the reader and the shared 128-byte scratch buffer (`o.buffer`). -/
structure oggState where
  reader : BReader
  buffer : ByteStr
deriving DecidableEq

/-- `o.reader.Read(o.buffer[:n])`: slicing the 128-byte shared buffer
beyond its length is a Go runtime panic; otherwise a raw read whose
actual count is returned, the unread tail of the buffer keeping its
stale bytes. -/
def oggState.readBuf (st : oggState) (n : Nat) : PRes (Nat × oggState) :=
  if 128 < n then .panicked
  else
    match st.reader.read n with
    | none => .err .ioError
    | some (got, r1) => .ok (got.size, ⟨r1, st.buffer.overwrite got⟩)

/-- `binary.Read` of `n` bytes through the state (buffer untouched). -/
def oggState.readFull (st : oggState) (n : Nat) : PRes (ByteStr × oggState) :=
  match st.reader.readFull n with
  | none => .err .ioError
  | some (bs, r1) => .ok (bs, ⟨r1, st.buffer⟩)

/-- `oggParser.parseOGGPageHeader`: optionally check the 4-byte capture
pattern (`ErrInvalidStream` on mismatch), then version (must be 0),
header type, 64-bit little-endian granule position, serial, sequence, a
raw 4-byte checksum read, the segment count, and a seek past the segment
table. -/
def oggState.parseOGGPageHeader (st : oggState) (skipMagicNumber : Bool) :
    PRes (oggPageHeader × oggState) :=
  match (if skipMagicNumber then .ok (oggMagicNumber, st) else
    match st.readBuf 4 with
    | .err e => .err e
    | .panicked => .panicked
    | .ok (_, st1) =>
      if st1.buffer.take 4 ≠ oggMagicNumber then .err .invalidStream
      else .ok (st1.buffer.take 4, st1) : PRes (ByteStr × oggState)) with
  | .err e => .err e
  | .panicked => .panicked
  | .ok (capture, st1) =>
    match st1.readFull 1 with
    | .err e => .err e
    | .panicked => .panicked
    | .ok (vb, st2) =>
      let version := leVal vb
      if version ≠ 0 then .err .invalidStream
      else
        match st2.readFull 1 with
        | .err e => .err e
        | .panicked => .panicked
        | .ok (htb, st3) =>
          match st3.readFull 8 with
          | .err e => .err e
          | .panicked => .panicked
          | .ok (gb, st4) =>
            match st4.readFull 4 with
            | .err e => .err e
            | .panicked => .panicked
            | .ok (serb, st5) =>
              match st5.readFull 4 with
              | .err e => .err e
              | .panicked => .panicked
              | .ok (seqb, st6) =>
                match st6.readBuf 4 with
                | .err e => .err e
                | .panicked => .panicked
                | .ok (_, st7) =>
                  match st7.readFull 1 with
                  | .err e => .err e
                  | .panicked => .panicked
                  | .ok (psb, st8) =>
                    match st8.reader.seekCur (leVal psb : Int) with
                    | none => .err .ioError
                    | some r9 =>
                      .ok (⟨capture, version, leVal htb, leVal gb, leVal serb,
                            leVal seqb, st7.buffer.take 4, leVal psb⟩,
                           ⟨r9, st8.buffer⟩)

/-- `oggParser.parseOGGCommonHeader`: read the packet-type byte, stash
it in the last slot of the shared buffer, read and check the 6-byte
`vorbis` word, and return the stashed type byte. -/
def oggState.parseOGGCommonHeader (st : oggState) : PRes (Nat × oggState) :=
  match st.readBuf 1 with
  | .err e => .err e
  | .panicked => .panicked
  | .ok (_, st1) =>
    let st2 : oggState := ⟨st1.reader, st1.buffer.setByte 127 (st1.buffer.byteAt 0)⟩
    match st2.readBuf 6 with
    | .err e => .err e
    | .panicked => .panicked
    | .ok (_, st3) =>
      if st3.buffer.take 6 ≠ oggVorbisWord then .err .invalidStream
      else .ok (st3.buffer.byteAt 127, st3)

/-- `oggParser.parseOGGIDHeader`: page header with the capture pattern
skipped (`New` already consumed it), common header of type 1, Vorbis
version 0, channel count, four 32-bit little-endian rates, and the
4+4+1 block-size/framing bit fields. -/
def oggState.parseOGGIDHeader (st : oggState) : PRes (oggIDHeader × oggState) :=
  match st.parseOGGPageHeader true with
  | .err e => .err e
  | .panicked => .panicked
  | .ok (_, st1) =>
    match st1.parseOGGCommonHeader with
    | .err e => .err e
    | .panicked => .panicked
    | .ok (headerType, st2) =>
      if headerType ≠ 1 then .err .invalidStream
      else
        match st2.readFull 4 with
        | .err e => .err e
        | .panicked => .panicked
        | .ok (vvb, st3) =>
          if leVal vvb ≠ 0 then .err .invalidStream
          else
            match st3.readFull 1 with
            | .err e => .err e
            | .panicked => .panicked
            | .ok (ccb, st4) =>
              match st4.readFull 4 with
              | .err e => .err e
              | .panicked => .panicked
              | .ok (srb, st5) =>
                match st5.readFull 4 with
                | .err e => .err e
                | .panicked => .panicked
                | .ok (maxb, st6) =>
                  match st6.readFull 4 with
                  | .err e => .err e
                  | .panicked => .panicked
                  | .ok (nomb, st7) =>
                    match st7.readFull 4 with
                    | .err e => .err e
                    | .panicked => .panicked
                    | .ok (minb, st8) =>
                      match readFields [4, 4, 1] st8.reader with
                      | none => .err .ioError
                      | some (fields, r9) =>
                        .ok (⟨leVal vvb, leVal ccb, leVal srb, leVal maxb,
                              leVal nomb, leVal minb, fields.getD 0 0,
                              fields.getD 1 0, fields.getD 2 0 = 1⟩,
                             ⟨r9, st8.buffer⟩)

/-- The comment loop of `oggParser.parseOGGCommentHeader`: for each
comment a 32-bit little-endian length, a read into the shared 128-byte
buffer (lengths beyond 128 panic on the slice), and a `KEY=VALUE` split
of the actually read bytes (`pair[1]` panics without `=`), the key
uppercased. -/
def oggState.parseOGGCommentLoop : Nat → Tags → oggState → PRes (Tags × oggState)
  | 0, m, st => .ok (m, st)
  | k + 1, m, st =>
    match st.readFull 4 with
    | .err e => .err e
    | .panicked => .panicked
    | .ok (lb, st1) =>
      match st1.readBuf (leVal lb) with
      | .err e => .err e
      | .panicked => .panicked
      | .ok (n, st2) =>
        let s := st2.buffer.take n
        match splitSecond? 61 s with
        | none => .panicked
        | some v =>
          oggState.parseOGGCommentLoop k (mapInsert m (upperBytes (splitHead 61 s)) v) st2

/-- `oggParser.parseOGGCommentHeader`: page header (capture pattern
checked), common header of type 3, vendor length and vendor string (read
into the shared buffer — the declared length is sliced even when the
read is short, exposing stale bytes, and a length beyond 128 panics),
comment count and comments, then one byte of seek to align with the
setup header.  Returns (encoder, tags, state). -/
def oggState.parseOGGCommentHeader (st : oggState) : PRes (ByteStr × Tags × oggState) :=
  match st.parseOGGPageHeader false with
  | .err e => .err e
  | .panicked => .panicked
  | .ok (_, st1) =>
    match st1.parseOGGCommonHeader with
    | .err e => .err e
    | .panicked => .panicked
    | .ok (headerType, st2) =>
      if headerType ≠ 3 then .err .invalidStream
      else
        match st2.readFull 4 with
        | .err e => .err e
        | .panicked => .panicked
        | .ok (vlb, st3) =>
          match st3.readBuf (leVal vlb) with
          | .err e => .err e
          | .panicked => .panicked
          | .ok (_, st4) =>
            let encoder := st4.buffer.take (leVal vlb)
            match st4.readFull 4 with
            | .err e => .err e
            | .panicked => .panicked
            | .ok (clb, st5) =>
              match oggState.parseOGGCommentLoop (leVal clb) [] st5 with
              | .err e => .err e
              | .panicked => .panicked
              | .ok (tags, st6) =>
                match st6.reader.seekCur 1 with
                | none => .err .ioError
                | some r7 => .ok (encoder, tags, ⟨r7, st6.buffer⟩)

/-- `oggParser.parseOGGDuration`: seek to 4096 bytes before the end (an
error for streams shorter than that), read the remainder, locate the
last `OggS` capture pattern (`ErrInvalidStream` if absent), and re-parse
that page's header over an in-memory reader.  The source swallows a
failure of that header parse (`return nil`), leaving the duration 0 (on
that swallowed path the source has partially advanced its replaced
reader; the returned state keeps the pre-parse reader, a difference no
accessor observes).  On success the duration is the final granule
position divided by the sample rate with truncating `uint64` division —
a runtime panic when the sample rate is 0.  The stored value is the
`time.Duration` itself (`int64` nanoseconds):
`time.Duration(granule / rate) * time.Second`, where the `uint64` to
`int64` conversion and the `* 10^9` multiply both wrap in 64 bits. -/
def parseOGGDurationFn (sampleRate : Nat) (st : oggState) : PRes (Int × oggState) :=
  match st.reader.seekEnd (-4096) with
  | none => .err .ioError
  | some r1 =>
    let vorbisFile := (r1.readAll).1
    match lastIndexOfSeq vorbisFile oggMagicNumber with
    | none => .err .invalidStream
    | some index =>
      let st2 : oggState := ⟨⟨vorbisFile.drop index, 0⟩, st.buffer⟩
      match st2.parseOGGPageHeader false with
      | .panicked => .panicked
      | .err _ => .ok (0, st2)
      | .ok (pageHeader, st3) =>
        if sampleRate = 0 then .panicked
        else .ok (wrapInt64 (toInt64 (pageHeader.granulePosition / sampleRate)
          * 1000000000), st3)

/-- A parsed Ogg Vorbis stream (`oggParser`). -/
structure oggParser where
  duration : Int
  encoder : ByteStr
  idHeader : oggIDHeader
  reader : BReader
  tags : Tags
  buffer : ByteStr
deriving DecidableEq

/-- The identification and comment phases of `newOGGParser`, up to (but
not including) the duration pass. -/
def oggAfterComment (r : BReader) : PRes (oggIDHeader × ByteStr × Tags × oggState) :=
  match oggState.parseOGGIDHeader ⟨r, ByteStr.zeros 128⟩ with
  | .err e => .err e
  | .panicked => .panicked
  | .ok (idh, st1) =>
    match st1.parseOGGCommentHeader with
    | .err e => .err e
    | .panicked => .panicked
    | .ok (enc, tags, st2) => .ok (idh, enc, tags, st2)

/-- `newOGGParser` (called by `New` after the `OggS` capture pattern is
consumed): identification header, comment header, duration pass. -/
def newOGGParser (r : BReader) : PRes oggParser :=
  match oggAfterComment r with
  | .err e => .err e
  | .panicked => .panicked
  | .ok (idh, enc, tags, st2) =>
    match parseOGGDurationFn idh.sampleRate st2 with
    | .err e => .err e
    | .panicked => .panicked
    | .ok (dur, st3) => .ok ⟨dur, enc, idh, st3.reader, tags, st3.buffer⟩

/-- `oggParser.Album`. -/
def oggParser.Album (o : oggParser) : ByteStr := mapLookup o.tags tagAlbum

/-- `oggParser.AlbumArtist`. -/
def oggParser.AlbumArtist (o : oggParser) : ByteStr := mapLookup o.tags tagAlbumArtist

/-- `oggParser.Artist`. -/
def oggParser.Artist (o : oggParser) : ByteStr := mapLookup o.tags tagArtist

/-- `oggParser.BitDepth` (always 16). -/
def oggParser.BitDepth (_ : oggParser) : Nat := 16

/-- `oggParser.Bitrate`: nominal bitrate over 1000. -/
def oggParser.Bitrate (o : oggParser) : Nat := o.idHeader.nomBitrate / 1000

/-- `oggParser.Channels`. -/
def oggParser.Channels (o : oggParser) : Nat := o.idHeader.channelCount

/-- `oggParser.Comment`. -/
def oggParser.Comment (o : oggParser) : ByteStr := mapLookup o.tags tagComment

/-- `oggParser.Date`. -/
def oggParser.Date (o : oggParser) : ByteStr := mapLookup o.tags tagDate

/-- `oggParser.DiscNumber`. -/
def oggParser.DiscNumber (o : oggParser) : Int :=
  match atoi? (mapLookup o.tags tagDiscNumber) with
  | none => 0
  | some disc => disc

/-- `oggParser.Duration`: the stored `time.Duration` (`int64`
nanoseconds). -/
def oggParser.Duration (o : oggParser) : Int := o.duration

/-- `oggParser.Encoder`. -/
def oggParser.Encoder (o : oggParser) : ByteStr := o.encoder

/-- `oggParser.Format`. -/
def oggParser.Format (_ : oggParser) : ByteStr := sbytes ("OGG")

/-- `oggParser.Genre`. -/
def oggParser.Genre (o : oggParser) : ByteStr := mapLookup o.tags tagGenre

/-- `oggParser.SampleRate`. -/
def oggParser.SampleRate (o : oggParser) : Nat := o.idHeader.sampleRate

/-- `oggParser.Tag`: raw lookup (no key normalization in this parser). -/
def oggParser.Tag (o : oggParser) (name : ByteStr) : ByteStr := mapLookup o.tags name

/-- `oggParser.Title`. -/
def oggParser.Title (o : oggParser) : ByteStr := mapLookup o.tags tagTitle

/-- `oggParser.TrackNumber`: `strconv.Atoi` of the text before the first
`/` of the raw tag, 0 on any error. -/
def oggParser.TrackNumber (o : oggParser) : Int :=
  match atoi? (splitHead 47 (mapLookup o.tags tagTrackNumber)) with
  | none => 0
  | some track => track

/-! ### Dispatcher (taggolib.go: `New`) -/

/-- The `Parser` interface value `New` returns: one of the three
format-specific parsers (a closed set; the source name `Parser` is
renamed to avoid ambiguity). -/
inductive TagParser where
  | flac : FLACParser → TagParser
  | mp3 : mp3Parser → TagParser
  | ogg : oggParser → TagParser
deriving DecidableEq

/-- Wrap a format parser's result into the interface. -/
def mapParser {α : Type} (f : α → TagParser) : PRes α → PRes TagParser
  | .ok a => .ok (f a)
  | .err e => .err e
  | .panicked => .panicked

/-- `New`: read one byte into the zero-filled 8-byte `magicBuf`; on
`'f'`, `'I'` or `'O'` read the rest of the corresponding magic number
(3, 2 and 3 further bytes) and compare; delegate to the matching parser
constructor, and return `ErrUnknownFormat` when nothing matches.  In the
source a failed comparison falls through to the remaining `if` blocks,
which cannot fire because the first buffer byte is unchanged, and then
reaches the final `ErrUnknownFormat` return; the model returns it
directly.  The second component is the dispatcher's own reader at the
moment of its return or delegation, exposing how many magic bytes `New`
itself consumed. -/
def New (r : BReader) : PRes TagParser × BReader :=
  match r.read 1 with
  | none => (.err .ioError, r)
  | some (b1, r1) =>
    let magicBuf := (ByteStr.zeros 8).overwrite b1
    if magicBuf.byteAt 0 = 102 then
      match r1.read 3 with
      | none => (.err .ioError, r1)
      | some (bs, r2) =>
        let magicBuf := magicBuf.overwrite (b1 ++ bs)
        if magicBuf.take 4 = flacMagicNumber then
          (mapParser TagParser.flac (newFLACParser r2), r2)
        else (.err .unknownFormat, r2)
    else if magicBuf.byteAt 0 = 73 then
      match r1.read 2 with
      | none => (.err .ioError, r1)
      | some (bs, r2) =>
        let magicBuf := magicBuf.overwrite (b1 ++ bs)
        if magicBuf.take 3 = mp3MagicNumber then
          (mapParser TagParser.mp3 (newMP3Parser r2), r2)
        else (.err .unknownFormat, r2)
    else if magicBuf.byteAt 0 = 79 then
      match r1.read 3 with
      | none => (.err .ioError, r1)
      | some (bs, r2) =>
        let magicBuf := magicBuf.overwrite (b1 ++ bs)
        if magicBuf.take 4 = oggMagicNumber then
          (mapParser TagParser.ogg (newOGGParser r2), r2)
        else (.err .unknownFormat, r2)
    else (.err .unknownFormat, r1)

/-- Every accessor value a caller can observe on a parser, gathered per
format: the string accessors, the numeric accessors, the duration, and
the full tag map (which determines `Tag(name)` for every `name`).  Each
variant lists exactly the accessors its embedded snapshot defines. -/
def observe : TagParser → List ByteStr × List Int × Option Int × Tags
  | .flac f =>
    ([f.Album, f.AlbumArtist, f.Artist, f.Checksum, f.Comment, f.Date, f.Encoder,
      f.Format, f.Genre, f.Title],
     [(f.BitDepth : Int), (f.Channels : Int), (f.SampleRate : Int), f.TrackNumber],
     f.DurationSec, f.tags)
  | .mp3 m =>
    ([m.Album, m.AlbumArtist, m.Artist, m.Comment, m.Date, m.Encoder, m.Format,
      m.Genre, m.Title],
     [(m.BitDepth : Int), (m.Bitrate : Int), (m.Channels : Int), m.DiscNumber,
      (m.SampleRate : Int), m.TrackNumber],
     some m.DurationSec, m.tags)
  | .ogg o =>
    ([o.Album, o.AlbumArtist, o.Artist, o.Comment, o.Date, o.Encoder, o.Format,
      o.Genre, o.Title],
     [(o.BitDepth : Int), (o.Bitrate : Int), (o.Channels : Int), o.DiscNumber,
      (o.SampleRate : Int), o.TrackNumber],
     some o.Duration, o.tags)

/-! ### Concrete test streams -/

/-- Big-endian encoding of `v` into `n` bytes (test-data helper). -/
def beBytes : Nat → Nat → ByteStr
  | 0, _ => ByteStr.empty
  | k + 1, v => beBytes k (v / 256) ++ ⟨1, v % 256⟩

/-- Little-endian encoding of `v` into `n` bytes (test-data helper). -/
def leBytes (n v : Nat) : ByteStr := ⟨n, v % 256 ^ n⟩

/-- A STREAMINFO block (header + body + MD5) with sample rate 44100,
2 channels, 16 bits per sample and 220500 samples. -/
def flacStreamInfoBytes : ByteStr :=
  ⟨4, 0x22000000⟩ ++ beBytes 2 4096 ++ beBytes 2 4096 ++ beBytes 3 0 ++ beBytes 3 0 ++
    beBytes 8 (44100 * 2 ^ 44 + 1 * 2 ^ 41 + 15 * 2 ^ 36 + 220500) ++
    ByteStr.zeros 16

/-- A last-block VORBIS_COMMENT block with vendor `encoder` and the tags
`TITLE=Title` and `TRACKNUMBER=1/12`. -/
def flacVorbisCommentBytes : ByteStr :=
  ⟨1, 132⟩ ++ beBytes 3 0 ++ leBytes 4 7 ++ sbytes ("encoder") ++ leBytes 4 2 ++
    leBytes 4 11 ++ sbytes ("TITLE=Title") ++
    leBytes 4 16 ++ sbytes ("TRACKNUMBER=1/12")

/-- A complete well-formed FLAC stream (magic number included). -/
def flacStreamBytes : ByteStr :=
  flacMagicNumber ++ flacStreamInfoBytes ++ flacVorbisCommentBytes

/-- A FLAC stream body (after the magic number) whose STREAMINFO block
declares a sample rate of 0, followed by a last block of another type
(so the tag scan ends with no tags). -/
def flacZeroRateBytes : ByteStr :=
  ⟨4, 0x22000000⟩ ++ beBytes 2 4096 ++ beBytes 2 4096 ++ beBytes 3 0 ++ beBytes 3 0 ++
    beBytes 8 (1 * 2 ^ 41 + 15 * 2 ^ 36 + 220500) ++ ByteStr.zeros 16 ++
    ⟨1, 129⟩ ++ beBytes 3 0

/-- An MP3 stream body (after the `ID3` magic): ID3v2.3 header with no
flags, an immediate padding frame, and an MPEG1 Layer III frame header
with no Xing or Info marker anywhere. -/
def mp3NoXingBytes : ByteStr :=
  ⟨1, 3⟩ ++ ByteStr.zeros 6 ++ ByteStr.zeros 4 ++ ⟨4, 255 + 256 * (251 + 256 * 144)⟩

/-- As `mp3NoXingBytes`, but with channel-mode bits 10 (value 2) in the
frame header's fourth byte. -/
def mp3Ch2Bytes : ByteStr :=
  ⟨1, 3⟩ ++ ByteStr.zeros 6 ++ ByteStr.zeros 4 ++
    ⟨4, 255 + 256 * (251 + 256 * (144 + 256 * 128))⟩

/-- An Ogg identification-header page body (after the consumed `OggS`):
page header remainder, then a type-1 `vorbis` packet with sample rate
44100, 2 channels and nominal bitrate 192000. -/
def oggIDPageBytes : ByteStr :=
  ⟨2, 2 * 256⟩ ++ leBytes 8 0 ++ leBytes 4 0 ++ leBytes 4 0 ++ leBytes 4 0 ++ ⟨1, 0⟩ ++
    ⟨1, 1⟩ ++ oggVorbisWord ++ leBytes 4 0 ++ ⟨1, 2⟩ ++ leBytes 4 44100 ++
    leBytes 4 0 ++ leBytes 4 192000 ++ leBytes 4 0 ++ ⟨2, 136 + 256 * 128⟩

/-- An Ogg comment-header page: full page header, then a type-3 `vorbis`
packet with vendor `encoder` and one comment `TITLE=Title`. -/
def oggCommentPageBytes : ByteStr :=
  oggMagicNumber ++ ⟨2, 3 * 256⟩ ++ leBytes 8 0 ++ leBytes 4 0 ++ leBytes 4 0 ++
    leBytes 4 0 ++ ⟨1, 0⟩ ++ ⟨1, 3⟩ ++ oggVorbisWord ++ leBytes 4 7 ++
    sbytes ("encoder") ++ leBytes 4 1 ++ leBytes 4 11 ++ sbytes ("TITLE=Title")

/-- A final Ogg page header with granule position 220500. -/
def oggLastPageBytes : ByteStr :=
  oggMagicNumber ++ ⟨2, 4 * 256⟩ ++ leBytes 8 220500 ++ leBytes 4 0 ++ leBytes 4 0 ++
    leBytes 4 0 ++ ⟨1, 0⟩

/-- A complete Ogg Vorbis stream body (after the consumed `OggS`):
identification page, comment page, zero padding, and a final page —
large enough for the 4096-byte tail seek of the duration pass. -/
def oggStreamBytes : ByteStr :=
  oggIDPageBytes ++ oggCommentPageBytes ++ ByteStr.zeros 4096 ++ oggLastPageBytes

/-- An Ogg Vorbis stream body whose comment header declares a 129-byte
vendor string: slicing the 128-byte shared buffer panics. -/
def oggPanicBytes : ByteStr :=
  oggIDPageBytes ++ oggMagicNumber ++ ⟨2, 3 * 256⟩ ++ leBytes 8 0 ++ leBytes 4 0 ++
    leBytes 4 0 ++ leBytes 4 0 ++ ⟨1, 0⟩ ++ ⟨1, 3⟩ ++ oggVorbisWord ++ leBytes 4 129

/-- A final Ogg page header with granule position `2^63` (large enough
that the `time.Duration` arithmetic wraps). -/
def oggBigLastPageBytes : ByteStr :=
  oggMagicNumber ++ ⟨2, 4 * 256⟩ ++ leBytes 8 (2 ^ 63) ++ leBytes 4 0 ++ leBytes 4 0 ++
    leBytes 4 0 ++ ⟨1, 0⟩

/-- A complete Ogg Vorbis stream body whose final page carries granule
position `2^63`. -/
def oggBigStreamBytes : ByteStr :=
  oggIDPageBytes ++ oggCommentPageBytes ++ ByteStr.zeros 4096 ++ oggBigLastPageBytes

/-! ### Parsed values of the concrete streams (used by witnesses and
counterexamples) -/

/-- Fallback FLAC parser value (never reached on the concrete streams). -/
def flacDummy : FLACParser :=
  ⟨ByteStr.empty, ⟨0, 0, 0, 0, 0, 0, 0, 0, ByteStr.empty⟩, ⟨ByteStr.empty, 0⟩, []⟩

/-- The parser of the well-formed FLAC body (magic already consumed). -/
def flacP0 : FLACParser :=
  match newFLACParser ⟨flacStreamInfoBytes ++ flacVorbisCommentBytes, 0⟩ with
  | .ok p => p
  | _ => flacDummy

/-- The parser of the FLAC body with sample rate 0. -/
def flacPZ : FLACParser :=
  match newFLACParser ⟨flacZeroRateBytes, 0⟩ with
  | .ok p => p
  | _ => flacDummy

/-- The interface value `New` yields on the full FLAC stream. -/
def tagP0 : TagParser :=
  match (New ⟨flacStreamBytes, 0⟩).1 with
  | .ok p => p
  | _ => .flac flacDummy

/-- Fallback MP3 parser value (never reached on the concrete streams). -/
def mp3Dummy : mp3Parser :=
  ⟨⟨0, 0, false, false, false, false, 0⟩,
   ⟨0, 0, false, 0, 0, false, false, 0, 0, false, false, 0⟩,
   ⟨ByteStr.empty, 0⟩, [], none⟩

/-- ID3v2 header and reader of the Xing-less MP3 body. -/
def mp3W1 : mp3ID3v2Header × BReader :=
  match mp3Parser.parseID3v2Header ⟨mp3NoXingBytes, 0⟩ with
  | .ok x => x
  | _ => (⟨0, 0, false, false, false, false, 0⟩, ⟨ByteStr.empty, 0⟩)

/-- Tags and reader after the frame pass of the Xing-less MP3 body. -/
def mp3W2 : Tags × BReader :=
  match mp3Parser.parseID3v2Frames ((mp3W1.1).majorVersion = 2) mp3W1.2 with
  | .ok x => x
  | _ => ([], ⟨ByteStr.empty, 0⟩)

/-- Frame-header buffer and reader of the Xing-less MP3 body. -/
def mp3W3 : ByteStr × BReader :=
  match mp3Parser.findFrameBuf mp3W2.2 with
  | .ok x => x
  | _ => (ByteStr.empty, ⟨ByteStr.empty, 0⟩)

/-- The parser of the MP3 body whose frame header has channel mode 2. -/
def mp3P2 : mp3Parser :=
  match newMP3Parser ⟨mp3Ch2Bytes, 0⟩ with
  | .ok p => p
  | _ => mp3Dummy

/-- Fallback Ogg pieces (never reached on the concrete streams). -/
def oggDummy : oggIDHeader × ByteStr × Tags × oggState :=
  (⟨0, 0, 0, 0, 0, 0, 0, 0, false⟩, ByteStr.empty, [], ⟨⟨ByteStr.empty, 0⟩, ByteStr.empty⟩)

/-- Identification header, encoder, tags and state of the Ogg stream
after its first two parsing phases. -/
def oggW1 : oggIDHeader × ByteStr × Tags × oggState :=
  match oggAfterComment ⟨oggStreamBytes, 0⟩ with
  | .ok x => x
  | _ => oggDummy

/-- The reader after the duration pass's tail seek on the Ogg stream. -/
def oggRs0 : BReader :=
  match (oggW1.2.2.2).reader.seekEnd (-4096) with
  | some rs => rs
  | none => ⟨ByteStr.empty, 0⟩

/-- The tail window the duration pass scans on the Ogg stream. -/
def oggRest0 : ByteStr := oggRs0.data.drop oggRs0.pos

/-- Index of the last `OggS` in the tail window of the Ogg stream. -/
def oggIdx0 : Nat :=
  match lastIndexOfSeq oggRest0 oggMagicNumber with
  | some i => i
  | none => 0

/-- The final page header (and state) of the Ogg stream. -/
def oggW2 : oggPageHeader × oggState :=
  match oggState.parseOGGPageHeader ⟨⟨oggRest0.drop oggIdx0, 0⟩, (oggW1.2.2.2).buffer⟩ false with
  | .ok x => x
  | _ => (⟨ByteStr.empty, 0, 0, 0, 0, 0, ByteStr.empty, 0⟩, ⟨⟨ByteStr.empty, 0⟩, ByteStr.empty⟩)

/-- The parser of the complete Ogg stream. -/
def oggP0 : oggParser :=
  match newOGGParser ⟨oggStreamBytes, 0⟩ with
  | .ok p => p
  | _ => ⟨0, ByteStr.empty, ⟨0, 0, 0, 0, 0, 0, 0, 0, false⟩, ⟨ByteStr.empty, 0⟩, [], ByteStr.empty⟩

/-- The parser of the Ogg stream whose final granule position is `2^63`. -/
def oggP1 : oggParser :=
  match newOGGParser ⟨oggBigStreamBytes, 0⟩ with
  | .ok p => p
  | _ => ⟨0, ByteStr.empty, ⟨0, 0, 0, 0, 0, 0, 0, 0, false⟩, ⟨ByteStr.empty, 0⟩, [], ByteStr.empty⟩

/-- An MP3 parser value holding the tag `TRACKNUMBER=1/12` (instantiation
of the track-number claims). -/
def mp3T12 : mp3Parser := { mp3Dummy with tags := [(tagTrackNumber, sbytes ("1/12"))] }

/-- An Ogg parser value holding the tag `TRACKNUMBER=1/12`. -/
def oggT12 : oggParser :=
  ⟨0, ByteStr.empty, ⟨0, 0, 0, 0, 0, 0, 0, 0, false⟩, ⟨ByteStr.empty, 0⟩,
   [(tagTrackNumber, sbytes ("1/12"))], ByteStr.empty⟩

/-- A FLAC parser value holding the tag `TRACKNUMBER=1/12`. -/
def flacT12 : FLACParser := { flacDummy with tags := [(tagTrackNumber, sbytes ("1/12"))] }

/-- An MP3 parser value holding the present but non-numeric tag
`TRACKNUMBER=abc`. -/
def mp3Abc : mp3Parser := { mp3Dummy with tags := [(tagTrackNumber, sbytes ("abc"))] }

/-- An Ogg parser value holding the tag `TRACKNUMBER=abc`. -/
def oggAbc : oggParser :=
  ⟨0, ByteStr.empty, ⟨0, 0, 0, 0, 0, 0, 0, 0, false⟩, ⟨ByteStr.empty, 0⟩,
   [(tagTrackNumber, sbytes ("abc"))], ByteStr.empty⟩

/-- A FLAC parser value holding the tag `TRACKNUMBER=abc`. -/
def flacAbc : FLACParser := { flacDummy with tags := [(tagTrackNumber, sbytes ("abc"))] }

/-! ### Helper lemmas -/

/-- Bound on the big-endian value of `k` packed bytes. -/
theorem beValAux_lt (k : Nat) : ∀ v : Nat, beValAux k v < 256 ^ k := by
  induction k with
  | zero => intro v; simp [beValAux]
  | succ k ih =>
    intro v
    have h1 : v % 256 ≤ 255 := by omega
    have h2 : beValAux k (v / 256) < 256 ^ k := ih (v / 256)
    calc beValAux (k + 1) v = v % 256 * 256 ^ k + beValAux k (v / 256) := rfl
      _ ≤ 255 * 256 ^ k + beValAux k (v / 256) := by
          have := Nat.mul_le_mul_right (256 ^ k) h1
          omega
      _ < 255 * 256 ^ k + 256 ^ k := by omega
      _ = 256 ^ (k + 1) := by ring
  
/-- The two fields of a FLAC metadata-block header that live in its
first byte: the 1-bit last-block flag and the 7-bit block type. -/
theorem flacHdr_fields (v : Nat) :
    beValAux 4 v / 2147483648 % 2 = v % 256 / 128 ∧
    beValAux 4 v / 16777216 % 128 = v % 256 % 128 := by
  have h : beValAux 3 (v / 256) < 16777216 := by
    have h1 := beValAux_lt 3 (v / 256)
    norm_num at h1
    exact h1
  have hv : beValAux 4 v = v % 256 * 16777216 + beValAux 3 (v / 256) := by rfl
  constructor
  · omega
  · omega

/-- The ID3v2 header fields used by the version checks: the 8-bit major
version (first byte) and the footer flag (bit 4 of the third byte). -/
theorem id3Hdr_fields (v : Nat) :
    beValAux 7 v / 281474976710656 % 256 = v % 256 ∧
    beValAux 7 v / 68719476736 % 2 = v / 256 / 256 % 256 / 16 % 2 := by
  have h : beValAux 4 (v / 256 / 256 / 256) < 4294967296 := by
    have h1 := beValAux_lt 4 (v / 256 / 256 / 256)
    norm_num at h1
    exact h1
  have hv : beValAux 7 v = v % 256 * 281474976710656 +
      (v / 256 % 256 * 1099511627776 +
        (v / 256 / 256 % 256 * 4294967296 + beValAux 4 (v / 256 / 256 / 256))) := by rfl
  rw [hv]
  have h0 : v % 256 < 256 := by omega
  have h1 : v / 256 % 256 < 256 := by omega
  have h2 : v / 256 / 256 % 256 < 256 := by omega
  revert h h0 h1 h2
  generalize beValAux 4 (v / 256 / 256 / 256) = R
  generalize v / 256 / 256 % 256 = b2
  generalize v / 256 % 256 = b1
  generalize v % 256 = b0
  intro h h0 h1 h2
  constructor
  · omega
  · omega

/-- The MPEG version-ID and layer-ID fields of an MPEG audio frame
header, in terms of its second byte. -/
theorem mp3Frame_fields (v : Nat) :
    beValAux 4 v / 524288 % 4 = v / 256 % 256 / 8 % 4 ∧
    beValAux 4 v / 131072 % 4 = v / 256 % 256 / 2 % 4 := by
  have h : beValAux 2 (v / 256 / 256) < 65536 := by
    have h1 := beValAux_lt 2 (v / 256 / 256)
    norm_num at h1
    exact h1
  have hv : beValAux 4 v = v % 256 * 16777216 +
      (v / 256 % 256 * 65536 + beValAux 2 (v / 256 / 256)) := by rfl
  rw [hv]
  have h0 : v % 256 < 256 := by omega
  have h1 : v / 256 % 256 < 256 := by omega
  revert h h0 h1
  generalize beValAux 2 (v / 256 / 256) = R
  generalize v / 256 % 256 = b1
  generalize v % 256 = b0
  intro h h0 h1
  constructor
  · omega
  · omega

/-- A key absent from a Go map reads as the zero value. -/
theorem mapLookup_of_find?_none (m : Tags) (k : ByteStr)
    (h : mapFind? m k = none) : mapLookup m k = ByteStr.empty := by
  induction m with
  | nil => rfl
  | cons kv rest ih =>
    obtain ⟨k1, v1⟩ := kv
    by_cases hk : k1 = k
    · simp [mapFind?, hk] at h
    · simp only [mapFind?, hk, if_false] at h
      simpa [mapLookup, hk] using ih h

/-- `allDigits` holds exactly when every packed byte is an ASCII digit. -/
theorem allDigits_iff (k : Nat) : ∀ v : Nat, allDigits k v = true ↔
    ∀ i, i < k → 48 ≤ v / 256 ^ i % 256 ∧ v / 256 ^ i % 256 ≤ 57 := by
  induction k with
  | zero => intro v; simp [allDigits]
  | succ k ih =>
    intro v
    simp only [allDigits, Bool.and_eq_true, decide_eq_true_eq, ih]
    constructor
    · rintro ⟨⟨h1, h2⟩, h3⟩ i hi
      match i with
      | 0 => simpa using ⟨h1, h2⟩
      | j + 1 =>
        have := h3 j (by omega)
        rw [Nat.div_div_eq_div_mul] at this
        have hp : (256 : Nat) ^ (j + 1) = 256 * 256 ^ j := by ring
        rw [hp]
        exact this
    · intro h
      refine ⟨by simpa using h 0 (by omega), fun j hj => ?_⟩
      have := h (j + 1) (by omega)
      rw [Nat.div_div_eq_div_mul]
      have hp : (256 : Nat) ^ (j + 1) = 256 * 256 ^ j := by ring
      rw [hp] at this
      exact this

/-- One-step unfolding of `splitHeadAux` at a successor count. -/
theorem splitHeadAux_succ (sep k v : Nat) :
    splitHeadAux sep (k + 1) v =
      if v % 256 = sep then ByteStr.empty
      else ByteStr.cons (v % 256) (splitHeadAux sep k (v / 256)) := rfl

/-- `splitHeadAux` on digits followed by a `/` (byte 47) and a remainder
returns exactly the digits. -/
theorem splitHeadAux_digits (rv : Nat) : ∀ (n m dv : Nat), dv < 256 ^ (n + 1) →
    (∀ i, i < n + 1 → 48 ≤ dv / 256 ^ i % 256 ∧ dv / 256 ^ i % 256 ≤ 57) →
    splitHeadAux 47 (n + 1 + (m + 1)) (dv + (47 + 256 * rv) * 256 ^ (n + 1)) =
      ⟨n + 1, dv⟩ := by
  intro n
  induction n with
  | zero =>
    intro m dv hdv hd
    have h0 := hd 0 (by omega)
    have hp : (256 : Nat) ^ (0 + 1) = 256 := by norm_num
    rw [hp] at hdv
    simp only [hp, Nat.pow_zero, Nat.div_one] at h0
    have e1 : 0 + 1 + (m + 1) = (m + 1) + 1 := by omega
    rw [e1, splitHeadAux_succ]
    have e2 : (dv + (47 + 256 * rv) * 256 ^ (0 + 1)) % 256 = dv := by
      rw [hp]; omega
    rw [e2]
    have hne : ¬(dv = 47) := by omega
    rw [if_neg hne]
    have e3 : (dv + (47 + 256 * rv) * 256 ^ (0 + 1)) / 256 = 47 + 256 * rv := by
      rw [hp]; omega
    rw [e3, splitHeadAux_succ]
    have e4 : (47 + 256 * rv) % 256 = 47 := by omega
    rw [e4, if_pos rfl]
    simp only [ByteStr.cons, ByteStr.empty]
    congr 1
    omega
  | succ n ih =>
    intro m dv hdv hd
    have h0 := hd 0 (by omega)
    simp only [Nat.pow_zero, Nat.div_one] at h0
    have e1 : n + 1 + 1 + (m + 1) = (n + 1 + (m + 1)) + 1 := by omega
    rw [e1, splitHeadAux_succ]
    have hp : (256 : Nat) ^ (n + 1 + 1) = 256 ^ (n + 1) * 256 := by ring
    have hC : (47 + 256 * rv) * 256 ^ (n + 1 + 1) =
        (47 + 256 * rv) * 256 ^ (n + 1) * 256 := by rw [hp]; ring
    have e2 : (dv + (47 + 256 * rv) * 256 ^ (n + 1 + 1)) % 256 = dv % 256 := by
      rw [hC]; omega
    rw [e2]
    have hne : ¬(dv % 256 = 47) := by omega
    rw [if_neg hne]
    have e3 : (dv + (47 + 256 * rv) * 256 ^ (n + 1 + 1)) / 256 =
        dv / 256 + (47 + 256 * rv) * 256 ^ (n + 1) := by
      rw [hC]; omega
    rw [e3]
    have hdv2 : dv / 256 < 256 ^ (n + 1) := by
      rw [hp] at hdv; omega
    have hd2 : ∀ i, i < n + 1 → 48 ≤ dv / 256 / 256 ^ i % 256 ∧
        dv / 256 / 256 ^ i % 256 ≤ 57 := by
      intro i hi
      have key : dv / 256 / 256 ^ i = dv / 256 ^ (i + 1) := by
        rw [Nat.div_div_eq_div_mul, ← Nat.pow_succ']
      rw [key]
      exact hd (i + 1) (by omega)
    rw [ih m (dv / 256) hdv2 hd2]
    simp only [ByteStr.cons]
    congr 1
    omega

/-- A nonempty all-digits string parses through `atoi?` to its decimal value. -/
theorem atoi?_all_digits (s : ByteStr) (hne : s.size ≠ 0)
    (hd : ∀ i, i < s.size → 48 ≤ s.byteAt i ∧ s.byteAt i ≤ 57)
    (hrange : asciiVal s < 2 ^ 63) :
    atoi? s = some ((asciiVal s : Nat) : Int) := by
  have h0 := hd 0 (by omega)
  simp only [atoi?]
  rw [if_neg hne]
  have hc : ¬(s.byteAt 0 = 43 ∨ s.byteAt 0 = 45) := by omega
  rw [if_neg hc, if_neg hne]
  rw [if_pos ((allDigits_iff s.size s.val).mpr (fun i hi => hd i hi))]
  have hc45 : ¬(s.byteAt 0 = 45) := by omega
  rw [if_neg hc45, if_pos hrange]

/-- `atoi?` fails whenever the string starts with a digit but is not made
of digits only. -/
theorem atoi?_none_of_digit_head (s : ByteStr) (hne : s.size ≠ 0)
    (h0 : 48 ≤ s.byteAt 0 ∧ s.byteAt 0 ≤ 57)
    (hAD : allDigits s.size s.val = false) :
    atoi? s = none := by
  simp only [atoi?]
  rw [if_neg hne]
  have hc : ¬(s.byteAt 0 = 43 ∨ s.byteAt 0 = 45) := by omega
  rw [if_neg hc, if_neg hne, hAD]
  simp

/-- `strings.Split(s, "/")[0]` on `digits ++ "/" ++ rest` returns the digits. -/
theorem splitHead_digits_slash (ds rest : ByteStr) (hwf : ds.WF) (hne : ds.size ≠ 0)
    (hd : ∀ i, i < ds.size → 48 ≤ ds.byteAt i ∧ ds.byteAt i ≤ 57) :
    splitHead 47 (ds ++ ByteStr.cons 47 rest) = ds := by
  obtain ⟨n, hn⟩ : ∃ n, ds.size = n + 1 := ⟨ds.size - 1, by omega⟩
  have hwf' : ds.val < 256 ^ (n + 1) := by rw [← hn]; exact hwf
  have hval : (ds ++ ByteStr.cons 47 rest).val
      = ds.val + (47 + 256 * rest.val) * 256 ^ (n + 1) := by
    show ds.val % 256 ^ ds.size + (47 % 256 + 256 * rest.val) * 256 ^ ds.size
        = ds.val + (47 + 256 * rest.val) * 256 ^ (n + 1)
    rw [hn, Nat.mod_eq_of_lt hwf']
  have hsize : (ds ++ ByteStr.cons 47 rest).size = n + 1 + (rest.size + 1) := by
    show ds.size + (rest.size + 1) = n + 1 + (rest.size + 1)
    rw [hn]
  show splitHeadAux 47 (ds ++ ByteStr.cons 47 rest).size (ds ++ ByteStr.cons 47 rest).val = ds
  rw [hsize, hval]
  rw [splitHeadAux_digits rest.val n rest.size ds.val hwf'
    (fun i hi => hd i (by omega))]
  obtain ⟨sz, v⟩ := ds
  simp only at hn
  rw [hn]

/-- `atoi?` fails on `digits ++ "/" ++ rest`: the slash is not a digit. -/
theorem atoi?_digits_slash (ds rest : ByteStr) (hwf : ds.WF) (hne : ds.size ≠ 0)
    (hd : ∀ i, i < ds.size → 48 ≤ ds.byteAt i ∧ ds.byteAt i ≤ 57) :
    atoi? (ds ++ ByteStr.cons 47 rest) = none := by
  obtain ⟨n, hn⟩ : ∃ n, ds.size = n + 1 := ⟨ds.size - 1, by omega⟩
  have hwf' : ds.val < 256 ^ (n + 1) := by rw [← hn]; exact hwf
  have hval : (ds ++ ByteStr.cons 47 rest).val
      = ds.val + (47 + 256 * rest.val) * 256 ^ (n + 1) := by
    show ds.val % 256 ^ ds.size + (47 % 256 + 256 * rest.val) * 256 ^ ds.size
        = ds.val + (47 + 256 * rest.val) * 256 ^ (n + 1)
    rw [hn, Nat.mod_eq_of_lt hwf']
  have hsize : (ds ++ ByteStr.cons 47 rest).size = n + 1 + (rest.size + 1) := by
    show ds.size + (rest.size + 1) = n + 1 + (rest.size + 1)
    rw [hn]
  have hne2 : (ds ++ ByteStr.cons 47 rest).size ≠ 0 := by rw [hsize]; omega
  have hP : (0 : Nat) < 256 ^ (n + 1) := Nat.pos_pow_of_pos _ (by norm_num)
  have hdiv0 : ds.val / 256 ^ (n + 1) = 0 := Nat.div_eq_of_lt hwf'
  have hb0 : (ds ++ ByteStr.cons 47 rest).byteAt 0 = ds.byteAt 0 := by
    show (ds ++ ByteStr.cons 47 rest).val / 256 ^ 0 % 256 = ds.val / 256 ^ 0 % 256
    rw [hval]
    have hpow : (256 : Nat) ^ (n + 1) = 256 * 256 ^ n := by ring
    have : (47 + 256 * rest.val) * 256 ^ (n + 1)
        = 256 * ((47 + 256 * rest.val) * 256 ^ n) := by rw [hpow]; ring
    rw [this]
    simp only [pow_zero, Nat.div_one]
    exact Nat.add_mul_mod_self_left ds.val 256 _
  have hAD : allDigits (ds ++ ByteStr.cons 47 rest).size
      (ds ++ ByteStr.cons 47 rest).val = false := by
    cases hA : allDigits (ds ++ ByteStr.cons 47 rest).size
        (ds ++ ByteStr.cons 47 rest).val with
    | false => rfl
    | true =>
      exfalso
      have h47 := ((allDigits_iff _ _).mp hA) (n + 1) (by rw [hsize]; omega)
      rw [hval] at h47
      rw [Nat.add_mul_div_right _ _ hP, hdiv0] at h47
      omega
  have h0 := hd 0 (by omega)
  exact atoi?_none_of_digit_head _ hne2 (by rw [hb0]; exact h0) hAD

/-! ### Claim theorems -/

/-- C3: for every FLAC input whose first metadata block header parses
with the last-block flag set or a block type other than 0 (STREAMINFO),
`newFLACParser` returns `ErrInvalidStream` and no parser instance. -/
theorem C3_flac_first_block_invalid (r r1 : BReader) (hdr : flacMetadataHeader)
    (hh : FLACParser.parseMetadataHeader r = .ok (hdr, r1))
    (hbad : hdr.lastBlock = true ∨ hdr.blockType ≠ 0) :
    newFLACParser r = .err .invalidStream := by
  have hp : FLACParser.parseProperties r = .err .invalidStream := by
    unfold FLACParser.parseProperties
    simp only [hh]
    rw [if_pos hbad]
  unfold newFLACParser
  simp only [hp]

/-- C3 witness: the four-byte body `0x81 0x00 0x00 0x00` declares a
last block of type 1, and `newFLACParser` rejects it. -/
theorem C3_witness :
    FLACParser.parseMetadataHeader ⟨⟨4, 129⟩, 0⟩ = .ok (⟨true, 1, 0⟩, ⟨⟨4, 129⟩, 4⟩) ∧
    newFLACParser ⟨⟨4, 129⟩, 0⟩ = .err .invalidStream := by
  have hh : FLACParser.parseMetadataHeader ⟨⟨4, 129⟩, 0⟩
      = .ok (⟨true, 1, 0⟩, ⟨⟨4, 129⟩, 4⟩) := by decide
  exact ⟨hh, C3_flac_first_block_invalid _ _ _ hh (Or.inl rfl)⟩

/-- C7: `New` is deterministic over an immutable buffer: two runs on
fresh readers either fail with the same error classification or return
parsers with identical observable accessor values. -/
theorem C7_new_deterministic (s : ByteStr) :
    (∀ p q : TagParser, (New ⟨s, 0⟩).1 = .ok p → (New ⟨s, 0⟩).1 = .ok q →
      observe p = observe q) ∧
    (∀ e1 e2 : ErrKind, (New ⟨s, 0⟩).1 = .err e1 → (New ⟨s, 0⟩).1 = .err e2 →
      e1 = e2) := by
  refine ⟨fun p q h1 h2 => ?_, fun e1 e2 h1 h2 => ?_⟩
  · rw [h1] at h2
    injection h2 with h3
    rw [h3]
  · rw [h1] at h2
    injection h2 with h3

/-- C8: a successfully parsed MP3 stream whose frame header carries
channel-mode value 2 reports 0 channels, because `mp3ChannelModeMap`
has entries only for 0, 1, 3 and 4. -/
theorem C8_mp3_channel_mode_two (r : BReader) (p : mp3Parser)
    (hok : newMP3Parser r = .ok p) (hc : p.mp3Hdr.channelMode = 2) :
    p.Channels = 0 := by
  unfold mp3Parser.Channels
  rw [hc]
  rfl

/-- C8 witness: the concrete channel-mode-2 stream parses to `mp3P2`,
whose `Channels()` is 0. -/
theorem C8_witness :
    newMP3Parser ⟨mp3Ch2Bytes, 0⟩ = .ok mp3P2 ∧ mp3P2.mp3Hdr.channelMode = 2 ∧
    mp3P2.Channels = 0 := by
  have hok : newMP3Parser ⟨mp3Ch2Bytes, 0⟩ = .ok mp3P2 := by rfl
  have hc : mp3P2.mp3Hdr.channelMode = 2 := by rfl
  exact ⟨hok, hc, C8_mp3_channel_mode_two _ _ hok hc⟩

/-- C9: an Ogg stream declaring a 129-byte vendor string drives the
parser into an out-of-range slice of the 128-byte shared buffer (a
runtime panic, not an error return); every slice `o.buffer[:n]` with
`n > 128` panics, and with `n ≤ 128` the buffer read never panics. -/
theorem C9_ogg_buffer_overrun :
    newOGGParser ⟨oggPanicBytes, 0⟩ = .panicked ∧
    (∀ (st : oggState) (n : Nat), 128 < n → st.readBuf n = .panicked) ∧
    (∀ (st : oggState) (n : Nat), n ≤ 128 → st.readBuf n ≠ .panicked) := by
  refine ⟨by rfl, fun st n hn => ?_, fun st n hn => ?_⟩
  · unfold oggState.readBuf
    rw [if_pos hn]
  · unfold oggState.readBuf
    rw [if_neg (by omega)]
    cases h : st.reader.read n with
    | none => simp
    | some x =>
      obtain ⟨got, r1⟩ := x
      simp

/-- C10: the concrete FLAC body with a zero 20-bit sample-rate field
parses successfully into `flacPZ`, whose `Duration()` divides by zero (a
runtime panic, modelled as `none`); `Duration()` is total exactly on
parsers with a non-zero parsed sample rate. -/
theorem C10_flac_duration_division_by_zero :
    newFLACParser ⟨flacZeroRateBytes, 0⟩ = .ok flacPZ ∧
    flacPZ.properties.sampleRate = 0 ∧
    flacPZ.DurationSec = none ∧
    (∀ f : FLACParser, f.DurationSec = none ↔ f.properties.sampleRate = 0) := by
  refine ⟨by rfl, by rfl, by rfl, fun f => ?_⟩
  unfold FLACParser.DurationSec
  by_cases h : f.properties.sampleRate = 0
  · simp [h]
  · simp [h]

/-- C2 counterexample: the concrete FLAC stream stores
`TRACKNUMBER=1/12`, yet `FLACParser.TrackNumber` returns 0, not 1: the
FLAC accessor does not split on `/`. -/
theorem C2_counterexample :
    newFLACParser ⟨flacStreamInfoBytes ++ flacVorbisCommentBytes, 0⟩ = .ok flacP0 ∧
    mapLookup flacP0.tags tagTrackNumber = sbytes ("1/12") ∧
    flacP0.TrackNumber = 0 := by
  refine ⟨by rfl, by rfl, by rfl⟩

/-- C2 (amended): the MP3 and Ogg `TrackNumber()` accessors return `N`
on a stored `N/M` track-number tag (`N` a nonempty digit string whose
value fits in an `int64`), the FLAC accessor returns 0 on such a tag
(it does not split on `/`), all three return 0 when the tag is absent,
and all three return 0 when the (split) tag text is non-numeric — when
`strconv.Atoi` fails on it, here `atoi? = none`.  The concrete `1/12`
and present-but-non-numeric `abc` parser values behave accordingly. -/
theorem C2_track_number_amended :
    (∀ (m : mp3Parser) (ds rest : ByteStr),
      mapLookup m.tags tagTrackNumber = ds ++ ByteStr.cons 47 rest →
      ds.WF → ds.size ≠ 0 →
      (∀ i, i < ds.size → 48 ≤ ds.byteAt i ∧ ds.byteAt i ≤ 57) →
      asciiVal ds < 2 ^ 63 →
      m.TrackNumber = ((asciiVal ds : Nat) : Int)) ∧
    (∀ (o : oggParser) (ds rest : ByteStr),
      mapLookup o.tags tagTrackNumber = ds ++ ByteStr.cons 47 rest →
      ds.WF → ds.size ≠ 0 →
      (∀ i, i < ds.size → 48 ≤ ds.byteAt i ∧ ds.byteAt i ≤ 57) →
      asciiVal ds < 2 ^ 63 →
      o.TrackNumber = ((asciiVal ds : Nat) : Int)) ∧
    (∀ (f : FLACParser) (ds rest : ByteStr),
      mapLookup f.tags tagTrackNumber = ds ++ ByteStr.cons 47 rest →
      ds.WF → ds.size ≠ 0 →
      (∀ i, i < ds.size → 48 ≤ ds.byteAt i ∧ ds.byteAt i ≤ 57) →
      f.TrackNumber = 0) ∧
    (∀ m : mp3Parser, mapFind? m.tags tagTrackNumber = none → m.TrackNumber = 0) ∧
    (∀ o : oggParser, mapFind? o.tags tagTrackNumber = none → o.TrackNumber = 0) ∧
    (∀ f : FLACParser, mapFind? f.tags tagTrackNumber = none → f.TrackNumber = 0) ∧
    (∀ m : mp3Parser, atoi? (splitHead 47 (mapLookup m.tags tagTrackNumber)) = none →
      m.TrackNumber = 0) ∧
    (∀ o : oggParser, atoi? (splitHead 47 (mapLookup o.tags tagTrackNumber)) = none →
      o.TrackNumber = 0) ∧
    (∀ f : FLACParser, atoi? (mapLookup f.tags tagTrackNumber) = none →
      f.TrackNumber = 0) ∧
    mp3T12.TrackNumber = 1 ∧ oggT12.TrackNumber = 1 ∧ flacT12.TrackNumber = 0 ∧
    mapLookup mp3Abc.tags tagTrackNumber = sbytes ("abc") ∧ mp3Abc.TrackNumber = 0 ∧
    mapLookup oggAbc.tags tagTrackNumber = sbytes ("abc") ∧ oggAbc.TrackNumber = 0 ∧
    mapLookup flacAbc.tags tagTrackNumber = sbytes ("abc") ∧ flacAbc.TrackNumber = 0 := by
  refine ⟨?_, ?_, ?_, ?_, ?_, ?_, ?_, ?_, ?_, by decide, by decide, by decide,
    by decide, by decide, by decide, by decide, by decide, by decide⟩
  · intro m ds rest hmap hwf hne hd hrange
    unfold mp3Parser.TrackNumber
    rw [hmap, splitHead_digits_slash ds rest hwf hne hd,
        atoi?_all_digits ds hne hd hrange]
  · intro o ds rest hmap hwf hne hd hrange
    unfold oggParser.TrackNumber
    rw [hmap, splitHead_digits_slash ds rest hwf hne hd,
        atoi?_all_digits ds hne hd hrange]
  · intro f ds rest hmap hwf hne hd
    unfold FLACParser.TrackNumber
    rw [hmap, atoi?_digits_slash ds rest hwf hne hd]
  · intro m hfind
    unfold mp3Parser.TrackNumber
    rw [mapLookup_of_find?_none _ _ hfind]
    decide
  · intro o hfind
    unfold oggParser.TrackNumber
    rw [mapLookup_of_find?_none _ _ hfind]
    decide
  · intro f hfind
    unfold FLACParser.TrackNumber
    rw [mapLookup_of_find?_none _ _ hfind]
    decide
  · intro m h
    unfold mp3Parser.TrackNumber
    rw [h]
  · intro o h
    unfold oggParser.TrackNumber
    rw [h]
  · intro f h
    unfold FLACParser.TrackNumber
    rw [h]

/-- C4 counterexample: with a final granule position of `2^63` (sample
rate 44100) the parse succeeds, but the stored `time.Duration` wraps in
`int64` and is not the quotient expressed in (nano)seconds, refuting
the original unconditional claim. -/
theorem C4_counterexample :
    newOGGParser ⟨oggBigStreamBytes, 0⟩ = .ok oggP1 ∧
    (oggP1.idHeader).sampleRate = 44100 ∧
    oggP1.Duration ≠ ((2 ^ 63 / 44100 : Nat) : Int) * 1000000000 := by
  refine ⟨by rfl, by rfl, by decide⟩

/-- C5: with at least 7 header bytes available, ID3v2 header parsing
returns `ErrUnsupportedVersion` exactly when the 8-bit major-version
byte lies outside [2, 4], and returns `ErrInvalidStream` when the major
version is in [2, 4) and the footer flag (bit 4 of the third header
byte) is set. -/
theorem C5_mp3_id3v2_header_versions (r : BReader)
    (hlen : r.pos + 7 ≤ r.data.size) :
    (errKindOf (mp3Parser.parseID3v2Header r) = some ErrKind.unsupportedVersion ↔
      (r.data.byteAt r.pos < 2 ∨ 4 < r.data.byteAt r.pos)) ∧
    (2 ≤ r.data.byteAt r.pos → r.data.byteAt r.pos < 4 →
      r.data.byteAt (r.pos + 2) / 16 % 2 = 1 →
      errKindOf (mp3Parser.parseID3v2Header r) = some ErrKind.invalidStream) := by
  have hread : r.readFull 7 = some ((r.data.drop r.pos).take 7, ⟨r.data, r.pos + 7⟩) := by
    unfold BReader.readFull
    rw [if_pos hlen]
  have hneed : (([8, 8, 1, 1, 1, 1, 4, 32] : List Nat).foldl (· + ·) 0 + 7) / 8 = 7 := by
    decide
  have hsz7 : ((r.data.drop r.pos).take 7).size = 7 := by
    show min 7 (r.data.size - r.pos) = 7
    omega
  have hval7 : ((r.data.drop r.pos).take 7).val = r.data.val / 256 ^ r.pos % 256 ^ 7 := by
    show r.data.val / 256 ^ r.pos % 256 ^ min 7 (r.data.size - r.pos)
        = r.data.val / 256 ^ r.pos % 256 ^ 7
    rw [show min 7 (r.data.size - r.pos) = 7 from by omega]
  have hbe : beVal ((r.data.drop r.pos).take 7)
      = beValAux 7 (r.data.val / 256 ^ r.pos % 256 ^ 7) := by
    unfold beVal
    rw [hsz7, hval7]
  have hb0 : r.data.byteAt r.pos = r.data.val / 256 ^ r.pos % 256 ^ 7 % 256 := by
    show r.data.val / 256 ^ r.pos % 256 = r.data.val / 256 ^ r.pos % 256 ^ 7 % 256
    have h7 : (256 : Nat) ^ 7 = 72057594037927936 := by norm_num
    rw [h7]
    omega
  have hb2 : r.data.byteAt (r.pos + 2)
      = r.data.val / 256 ^ r.pos % 256 ^ 7 / 256 / 256 % 256 := by
    show r.data.val / 256 ^ (r.pos + 2) % 256
        = r.data.val / 256 ^ r.pos % 256 ^ 7 / 256 / 256 % 256
    have h1 : r.data.val / 256 ^ (r.pos + 2) = r.data.val / 256 ^ r.pos / 256 / 256 := by
      rw [Nat.div_div_eq_div_mul, Nat.div_div_eq_div_mul]
      congr 1
      ring
    rw [h1]
    have h7 : (256 : Nat) ^ 7 = 72057594037927936 := by norm_num
    rw [h7]
    omega
  unfold mp3Parser.parseID3v2Header readFields
  simp only [hneed, hread]
  simp only [extractFields]
  simp only [List.getD_cons_zero, List.getD_cons_succ]
  norm_num
  rw [hbe]
  obtain ⟨hmajF, hfootF⟩ := id3Hdr_fields (r.data.val / 256 ^ r.pos % 256 ^ 7)
  rw [hmajF, hfootF, hb0, hb2]
  generalize r.data.val / 256 ^ r.pos % 256 ^ 7 = v
  by_cases hmaj : v % 256 < 2 ∨ 4 < v % 256
  · rw [if_pos hmaj]
    refine ⟨⟨fun _ => hmaj, fun _ => rfl⟩, fun h2 h4 _ => ?_⟩
    exfalso
    omega
  · rw [if_neg hmaj]
    by_cases hfo : v % 256 < 4 ∧ v / 256 / 256 % 256 / 16 % 2 = 1
    · rw [if_pos hfo]
      refine ⟨⟨fun h => ?_, fun h => absurd h hmaj⟩, fun _ _ _ => rfl⟩
      exfalso
      injection h with h1
      exact ErrKind.noConfusion h1
    · rw [if_neg hfo]
      refine ⟨⟨fun h => ?_, fun h => absurd h hmaj⟩, fun h2 h4 hfoot => ?_⟩
      · exfalso
        by_cases hext : beValAux 7 v / 274877906944 % 2 = 1
        · rw [if_pos hext] at h
          cases h4 : BReader.readFull ⟨r.data, r.pos + 7⟩ 4 with
          | none => rw [h4] at h; simp [errKindOf] at h
          | some pr =>
            obtain ⟨bs, r2⟩ := pr
            rw [h4] at h
            simp only [] at h
            cases h5 : r2.seekCur ((beVal bs : Int) - 4) with
            | none => rw [h5] at h; simp [errKindOf] at h
            | some r3 => rw [h5] at h; simp [errKindOf] at h
        · rw [if_neg hext] at h
          simp [errKindOf] at h
      · exact absurd ⟨h4, hfoot⟩ hfo

/-- C5 witness: the 7-byte header body starting with major version 5 is
rejected as an unsupported version. -/
theorem C5_witness :
    (0 + 7 ≤ 7) ∧
    ((errKindOf (mp3Parser.parseID3v2Header ⟨⟨7, 5⟩, 0⟩) = some ErrKind.unsupportedVersion ↔
      (ByteStr.byteAt ⟨7, 5⟩ 0 < 2 ∨ 4 < ByteStr.byteAt ⟨7, 5⟩ 0)) ∧
     (2 ≤ ByteStr.byteAt ⟨7, 5⟩ 0 → ByteStr.byteAt ⟨7, 5⟩ 0 < 4 →
      ByteStr.byteAt ⟨7, 5⟩ (0 + 2) / 16 % 2 = 1 →
      errKindOf (mp3Parser.parseID3v2Header ⟨⟨7, 5⟩, 0⟩) = some ErrKind.invalidStream)) :=
  ⟨by decide, C5_mp3_id3v2_header_versions ⟨⟨7, 5⟩, 0⟩ (by decide)⟩

/-- `toInt64` is the identity below `2^63` (no wrap). -/
theorem toInt64_small (n : Nat) (h : n < 2 ^ 63) : toInt64 n = (n : Int) := by
  simp only [toInt64]
  rw [Nat.mod_eq_of_lt (show n < 2 ^ 64 by omega), if_pos h]

/-- `wrapInt64` is the identity on `[0, 2^63)` (no wrap). -/
theorem wrapInt64_small (z : Int) (h0 : 0 ≤ z) (h1 : z < 2 ^ 63) :
    wrapInt64 z = z := by
  simp only [wrapInt64]
  rw [Int.emod_eq_of_lt h0 (by omega), if_pos h1]

/-- C4: on every successfully parsed Ogg stream the reported duration is
the `time.Duration` of granule-position-over-sample-rate seconds
(truncating unsigned division), provided that quotient is at most
`9223372036` so the `int64` nanosecond value does not overflow.  The
hypotheses walk the duration pass: the identification and comment
phases succeed, the tail seek succeeds, a last `OggS` is found, and its
page header parses. -/
theorem C4_ogg_duration (r : BReader) (idh : oggIDHeader) (enc : ByteStr)
    (tags : Tags) (st2 : oggState)
    (hA : oggAfterComment r = .ok (idh, enc, tags, st2))
    (rs : BReader) (hseek : st2.reader.seekEnd (-4096) = some rs)
    (idx : Nat) (hidx : lastIndexOfSeq (rs.data.drop rs.pos) oggMagicNumber = some idx)
    (ph : oggPageHeader) (st3 : oggState)
    (hph : oggState.parseOGGPageHeader ⟨⟨(rs.data.drop rs.pos).drop idx, 0⟩, st2.buffer⟩ false
      = .ok (ph, st3))
    (hrate : idh.sampleRate ≠ 0)
    (hbound : ph.granulePosition / idh.sampleRate ≤ 9223372036)
    (p : oggParser) (hok : newOGGParser r = .ok p) :
    p.Duration = ((ph.granulePosition / idh.sampleRate : Nat) : Int) * 1000000000 := by
  unfold newOGGParser at hok
  rw [hA] at hok
  simp only [] at hok
  unfold parseOGGDurationFn at hok
  rw [hseek] at hok
  simp only [] at hok
  rw [show (rs.readAll).1 = rs.data.drop rs.pos from rfl, hidx] at hok
  simp only [] at hok
  rw [hph] at hok
  simp only [] at hok
  rw [if_neg hrate] at hok
  simp only [] at hok
  injection hok with h1
  rw [← h1]
  show wrapInt64 (toInt64 (ph.granulePosition / idh.sampleRate) * 1000000000)
      = ((ph.granulePosition / idh.sampleRate : Nat) : Int) * 1000000000
  rw [toInt64_small _ (show ph.granulePosition / idh.sampleRate < 2 ^ 63 by omega)]
  exact wrapInt64_small _ (by positivity) (by omega)

/-- C4 witness: on the concrete Ogg stream, every hypothesis of the
duration property holds (the quotient `220500 / 44100 = 5` is far below
the overflow bound) and the reported duration is 5 seconds. -/
theorem C4_witness :
    oggAfterComment ⟨oggStreamBytes, 0⟩
      = .ok (oggW1.1, oggW1.2.1, oggW1.2.2.1, oggW1.2.2.2) ∧
    (oggW1.2.2.2).reader.seekEnd (-4096) = some oggRs0 ∧
    lastIndexOfSeq (oggRs0.data.drop oggRs0.pos) oggMagicNumber = some oggIdx0 ∧
    oggState.parseOGGPageHeader
      ⟨⟨(oggRs0.data.drop oggRs0.pos).drop oggIdx0, 0⟩, (oggW1.2.2.2).buffer⟩ false
      = .ok (oggW2.1, oggW2.2) ∧
    (oggW1.1).sampleRate ≠ 0 ∧
    (oggW2.1).granulePosition / (oggW1.1).sampleRate ≤ 9223372036 ∧
    newOGGParser ⟨oggStreamBytes, 0⟩ = .ok oggP0 ∧
    oggP0.Duration
      = (((oggW2.1).granulePosition / (oggW1.1).sampleRate : Nat) : Int) * 1000000000 := by
  have hA : oggAfterComment ⟨oggStreamBytes, 0⟩
      = .ok (oggW1.1, oggW1.2.1, oggW1.2.2.1, oggW1.2.2.2) := by rfl
  have hseek : (oggW1.2.2.2).reader.seekEnd (-4096) = some oggRs0 := by rfl
  have hidx : lastIndexOfSeq (oggRs0.data.drop oggRs0.pos) oggMagicNumber
      = some oggIdx0 := by rfl
  have hph : oggState.parseOGGPageHeader
      ⟨⟨(oggRs0.data.drop oggRs0.pos).drop oggIdx0, 0⟩, (oggW1.2.2.2).buffer⟩ false
      = .ok (oggW2.1, oggW2.2) := by rfl
  have hr44 : (oggW1.1).sampleRate = 44100 := by rfl
  have hrate : (oggW1.1).sampleRate ≠ 0 := by rw [hr44]; decide
  have hbound : (oggW2.1).granulePosition / (oggW1.1).sampleRate ≤ 9223372036 := by
    rw [hr44, show (oggW2.1).granulePosition = 220500 from by rfl]
    decide
  have hok : newOGGParser ⟨oggStreamBytes, 0⟩ = .ok oggP0 := by rfl
  exact ⟨hA, hseek, hidx, hph, hrate, hbound, hok,
    C4_ogg_duration ⟨oggStreamBytes, 0⟩ oggW1.1 oggW1.2.1 oggW1.2.2.1 oggW1.2.2.2
      hA oggRs0 hseek oggIdx0 hidx oggW2.1 oggW2.2 hph hrate hbound oggP0 hok⟩

/-- C6: an MP3 stream that parses through the ID3v2 phases, whose
frame-header buffer decodes to MPEG1 Layer III and contains neither a
`Xing` nor an `Info` marker, and whose tags have no `LENGTH` (TLEN)
entry, parses successfully into a parser whose `Duration()` is 0. -/
theorem C6_mp3_duration_fallback (r : BReader)
    (id3 : mp3ID3v2Header) (r1 : BReader)
    (h1 : mp3Parser.parseID3v2Header r = .ok (id3, r1))
    (tags : Tags) (r2 : BReader)
    (h2 : mp3Parser.parseID3v2Frames (id3.majorVersion = 2) r1 = .ok (tags, r2))
    (hlen : mapFind? tags mp3TagLength = none)
    (buf : ByteStr) (r3 : BReader)
    (h3 : mp3Parser.findFrameBuf r2 = .ok (buf, r3))
    (hsz : 4 ≤ buf.size)
    (hver : buf.byteAt 1 / 8 % 4 = 3)
    (hlay : buf.byteAt 1 / 2 % 4 = 1)
    (hxing : indexOfSeq buf mp3XingMarker = none)
    (hinfo : indexOfSeq buf mp3InfoMarker = none) :
    ∃ p : mp3Parser, newMP3Parser r = .ok p ∧ p.DurationSec = 0 := by
  have hread4 : BReader.readFull ⟨buf, 0⟩ 4 = some ((buf.drop 0).take 4, ⟨buf, 0 + 4⟩) := by
    unfold BReader.readFull
    rw [if_pos (show (0 : Nat) + 4 ≤ buf.size by omega)]
  have hneed13 : (([11, 2, 2, 1, 4, 2, 1, 1, 2, 2, 1, 1, 2] : List Nat).foldl (· + ·) 0 + 7) / 8
      = 4 := by decide
  have hszt : ((buf.drop 0).take 4).size = 4 := by
    show min 4 (buf.size - 0) = 4
    omega
  have hvalt : ((buf.drop 0).take 4).val = buf.val % 256 ^ 4 := by
    show buf.val / 256 ^ 0 % 256 ^ min 4 (buf.size - 0) = buf.val % 256 ^ 4
    rw [pow_zero, Nat.div_one, show min 4 (buf.size - 0) = 4 from by omega]
  have hbe4 : beVal ((buf.drop 0).take 4) = beValAux 4 (buf.val % 256 ^ 4) := by
    unfold beVal
    rw [hszt, hvalt]
  have hb1 : buf.val % 256 ^ 4 / 256 % 256 = buf.byteAt 1 := by
    show buf.val % 256 ^ 4 / 256 % 256 = buf.val / 256 ^ 1 % 256
    have h4 : (256 : Nat) ^ 4 = 4294967296 := by norm_num
    rw [h4, pow_one]
    omega
  have hM : ∃ hdr, mp3Parser.parseMP3Header r2 = .ok (hdr, none, r3) := by
    unfold mp3Parser.parseMP3Header readFields
    rw [h3]
    simp only []
    simp only [hneed13, hread4]
    simp only [extractFields, List.getD_cons_zero, List.getD_cons_succ]
    norm_num
    rw [hbe4]
    obtain ⟨hv1, hv2⟩ := mp3Frame_fields (buf.val % 256 ^ 4)
    rw [hv1, hv2, hb1]
    rw [if_pos hver, if_pos hlay]
    rw [hxing]
    simp only []
    rw [hinfo]
    exact ⟨_, rfl⟩
  obtain ⟨hdr, hM⟩ := hM
  refine ⟨⟨id3, hdr, r3, tags, none⟩, ?_, ?_⟩
  · unfold newMP3Parser
    rw [h1]
    simp only []
    rw [h2]
    simp only []
    rw [hM]
  · unfold mp3Parser.DurationSec
    simp only []
    rw [mapLookup_of_find?_none _ _ hlen]
    decide

/-- C6 witness: the concrete Xing-less MP3 body satisfies every
hypothesis of the duration-fallback property, and its parser reports a
duration of 0 seconds. -/
theorem C6_witness :
    mp3Parser.parseID3v2Header ⟨mp3NoXingBytes, 0⟩ = .ok (mp3W1.1, mp3W1.2) ∧
    mp3Parser.parseID3v2Frames ((mp3W1.1).majorVersion = 2) mp3W1.2
      = .ok (mp3W2.1, mp3W2.2) ∧
    mapFind? mp3W2.1 mp3TagLength = none ∧
    mp3Parser.findFrameBuf mp3W2.2 = .ok (mp3W3.1, mp3W3.2) ∧
    4 ≤ (mp3W3.1).size ∧
    (mp3W3.1).byteAt 1 / 8 % 4 = 3 ∧
    (mp3W3.1).byteAt 1 / 2 % 4 = 1 ∧
    indexOfSeq mp3W3.1 mp3XingMarker = none ∧
    indexOfSeq mp3W3.1 mp3InfoMarker = none ∧
    (∃ p : mp3Parser, newMP3Parser ⟨mp3NoXingBytes, 0⟩ = .ok p ∧ p.DurationSec = 0) := by
  have e1 : mp3Parser.parseID3v2Header ⟨mp3NoXingBytes, 0⟩ = .ok (mp3W1.1, mp3W1.2) := by rfl
  have e2 : mp3Parser.parseID3v2Frames ((mp3W1.1).majorVersion = 2) mp3W1.2
      = .ok (mp3W2.1, mp3W2.2) := by rfl
  have e3 : mapFind? mp3W2.1 mp3TagLength = none := by rfl
  have e4 : mp3Parser.findFrameBuf mp3W2.2 = .ok (mp3W3.1, mp3W3.2) := by rfl
  have e5 : 4 ≤ (mp3W3.1).size := by
    rw [show (mp3W3.1).size = 4096 from by rfl]
    omega
  have e6 : (mp3W3.1).byteAt 1 / 8 % 4 = 3 := by rfl
  have e7 : (mp3W3.1).byteAt 1 / 2 % 4 = 1 := by rfl
  have e8 : indexOfSeq mp3W3.1 mp3XingMarker = none := by rfl
  have e9 : indexOfSeq mp3W3.1 mp3InfoMarker = none := by rfl
  exact ⟨e1, e2, e3, e4, e5, e6, e7, e8, e9,
    C6_mp3_duration_fallback ⟨mp3NoXingBytes, 0⟩ mp3W1.1 mp3W1.2 e1 mp3W2.1 mp3W2.2
      e2 e3 mp3W3.1 mp3W3.2 e4 e5 e6 e7 e8 e9⟩

/-- The 4- or 3-byte comparison window `New` builds after its second
read: the zero-filled 8-byte buffer overwritten with the first byte and
then with first byte plus tail read holds, in its first `n + 1` bytes,
exactly the first `min (n + 1) size` stream bytes (zero-padded). -/
theorem New_tail_take (s : ByteStr) (hsz : 2 ≤ s.size) (n : Nat) (hn1 : 1 ≤ n)
    (hn8 : n + 1 ≤ 8) :
    (((ByteStr.zeros 8).overwrite ((s.drop 0).take 1)).overwrite
        ((s.drop 0).take 1 ++ (s.drop (0 + 1)).take (min n (s.size - (0 + 1))))).take (n + 1)
      = ⟨n + 1, s.val % 256 ^ min (n + 1) s.size⟩ := by
  have hb1s : ((s.drop 0).take 1).size = 1 := by
    show min 1 (s.size - 0) = 1
    omega
  have hb1v : ((s.drop 0).take 1).val = s.val % 256 := by
    show s.val / 256 ^ 0 % 256 ^ min 1 (s.size - 0) = s.val % 256
    rw [pow_zero, Nat.div_one, show min 1 (s.size - 0) = 1 from by omega, pow_one]
  have hM1v : ((ByteStr.zeros 8).overwrite ((s.drop 0).take 1)).val = s.val % 256 := by
    show ((s.drop 0).take 1).val % 256 ^ ((s.drop 0).take 1).size
        + (ByteStr.zeros 8).val / 256 ^ ((s.drop 0).take 1).size
          * 256 ^ ((s.drop 0).take 1).size = s.val % 256
    rw [hb1s, hb1v]
    show s.val % 256 % 256 ^ 1 + 0 / 256 ^ 1 * 256 ^ 1 = s.val % 256
    rw [pow_one]
    omega
  set k := min n (s.size - (0 + 1)) with hkdef
  have hk2 : k + 1 = min (n + 1) s.size := by omega
  have hbss : ((s.drop (0 + 1)).take k).size = k := by
    show min k (s.size - (0 + 1)) = k
    omega
  have hbsv : ((s.drop (0 + 1)).take k).val = s.val / 256 % 256 ^ k := by
    show s.val / 256 ^ (0 + 1) % 256 ^ min k (s.size - (0 + 1)) = s.val / 256 % 256 ^ k
    rw [show (0 : Nat) + 1 = 1 from rfl, pow_one, show min k (s.size - 1) = k from by omega]
  have hCs : ((s.drop 0).take 1 ++ (s.drop (0 + 1)).take k).size = 1 + k := by
    show ((s.drop 0).take 1).size + ((s.drop (0 + 1)).take k).size = 1 + k
    rw [hb1s, hbss]
  have hCv : ((s.drop 0).take 1 ++ (s.drop (0 + 1)).take k).val = s.val % 256 ^ (k + 1) := by
    show ((s.drop 0).take 1).val % 256 ^ ((s.drop 0).take 1).size
        + ((s.drop (0 + 1)).take k).val * 256 ^ ((s.drop 0).take 1).size
        = s.val % 256 ^ (k + 1)
    rw [hb1s, hb1v, hbsv, pow_one]
    have hp : (256 : Nat) ^ (k + 1) = 256 * 256 ^ k := by ring
    rw [hp, Nat.mod_mul]
    generalize s.val / 256 % 256 ^ k = X
    omega
  have hpos : 0 < 256 ^ (k + 1) := Nat.pos_pow_of_pos _ (by norm_num)
  have hle : (256 : Nat) ≤ 256 ^ (k + 1) := by
    calc (256 : Nat) = 256 ^ 1 := (pow_one 256).symm
    _ ≤ 256 ^ (k + 1) := Nat.pow_le_pow_right (by norm_num) (by omega)
  have hM2v : (((ByteStr.zeros 8).overwrite ((s.drop 0).take 1)).overwrite
      ((s.drop 0).take 1 ++ (s.drop (0 + 1)).take k)).val = s.val % 256 ^ (k + 1) := by
    show ((s.drop 0).take 1 ++ (s.drop (0 + 1)).take k).val
        % 256 ^ ((s.drop 0).take 1 ++ (s.drop (0 + 1)).take k).size
        + ((ByteStr.zeros 8).overwrite ((s.drop 0).take 1)).val
          / 256 ^ ((s.drop 0).take 1 ++ (s.drop (0 + 1)).take k).size
          * 256 ^ ((s.drop 0).take 1 ++ (s.drop (0 + 1)).take k).size
        = s.val % 256 ^ (k + 1)
    rw [hCs, hCv, hM1v, show 1 + k = k + 1 from by omega]
    have hlt : s.val % 256 < 256 ^ (k + 1) :=
      lt_of_lt_of_le (Nat.mod_lt _ (by norm_num)) hle
    rw [Nat.mod_eq_of_lt (Nat.mod_lt _ hpos), Nat.div_eq_of_lt hlt]
    simp
  have hM2s : (((ByteStr.zeros 8).overwrite ((s.drop 0).take 1)).overwrite
      ((s.drop 0).take 1 ++ (s.drop (0 + 1)).take k)).size = 8 := rfl
  show (⟨min (n + 1) (((ByteStr.zeros 8).overwrite ((s.drop 0).take 1)).overwrite
        ((s.drop 0).take 1 ++ (s.drop (0 + 1)).take k)).size,
      (((ByteStr.zeros 8).overwrite ((s.drop 0).take 1)).overwrite
        ((s.drop 0).take 1 ++ (s.drop (0 + 1)).take k)).val
        % 256 ^ min (n + 1) (((ByteStr.zeros 8).overwrite ((s.drop 0).take 1)).overwrite
          ((s.drop 0).take 1 ++ (s.drop (0 + 1)).take k)).size⟩ : ByteStr)
    = ⟨n + 1, s.val % 256 ^ min (n + 1) s.size⟩
  rw [hM2s, hM2v, show min (n + 1) 8 = n + 1 from by omega, ← hk2]
  congr 1
  exact Nat.mod_eq_of_lt (lt_of_lt_of_le (Nat.mod_lt _ hpos)
    (Nat.pow_le_pow_right (by norm_num) (by omega)))

/-- Byte 0 of the zero-filled 8-byte buffer after `New`'s first 1-byte
read is byte 0 of the stream. -/
theorem New_magicBuf1_byteAt (s : ByteStr) (hne : s.size ≠ 0) :
    ((ByteStr.zeros 8).overwrite ((s.drop 0).take 1)).byteAt 0 = s.byteAt 0 := by
  have hb1s : ((s.drop 0).take 1).size = 1 := by
    show min 1 (s.size - 0) = 1
    omega
  have hb1v : ((s.drop 0).take 1).val = s.val % 256 := by
    show s.val / 256 ^ 0 % 256 ^ min 1 (s.size - 0) = s.val % 256
    rw [pow_zero, Nat.div_one, show min 1 (s.size - 0) = 1 from by omega, pow_one]
  have hM1v : ((ByteStr.zeros 8).overwrite ((s.drop 0).take 1)).val = s.val % 256 := by
    show ((s.drop 0).take 1).val % 256 ^ ((s.drop 0).take 1).size
        + (ByteStr.zeros 8).val / 256 ^ ((s.drop 0).take 1).size
          * 256 ^ ((s.drop 0).take 1).size = s.val % 256
    rw [hb1s, hb1v]
    show s.val % 256 % 256 ^ 1 + 0 / 256 ^ 1 * 256 ^ 1 = s.val % 256
    rw [pow_one]
    omega
  show ((ByteStr.zeros 8).overwrite ((s.drop 0).take 1)).val / 256 ^ 0 % 256
      = s.val / 256 ^ 0 % 256
  rw [hM1v]
  simp only [pow_zero, Nat.div_one]
  omega

/-- C1 counterexample: the one-byte stream `f` does not begin with any
of the three magic numbers, yet `New` returns the propagated read error
(`io.EOF` from the second `Read`), not `ErrUnknownFormat`. -/
theorem C1_counterexample :
    (New ⟨⟨1, 102⟩, 0⟩).1 = .err .ioError ∧
    (New ⟨⟨1, 102⟩, 0⟩).1 ≠ .err .unknownFormat := by
  exact ⟨by decide, by decide⟩

/-- C1 (amended): on a nonempty stream whose first byte is none of
`f`, `I`, `O`, `New` returns `ErrUnknownFormat` after consuming exactly
1 byte; on a stream of at least 2 bytes starting with `f`, `I` or `O`
but not with the corresponding magic number, `New` returns
`ErrUnknownFormat` after consuming at most 4 (resp. 3, 4) bytes; on the
empty stream, and on the 1-byte streams `f`, `I`, `O`, `New` instead
propagates the read error, so the original unconditional claim fails
there. -/
theorem C1_unknown_format_amended :
    (∀ s : ByteStr, s.size ≠ 0 →
      s.byteAt 0 ≠ 102 → s.byteAt 0 ≠ 73 → s.byteAt 0 ≠ 79 →
      (New ⟨s, 0⟩).1 = .err .unknownFormat ∧ ((New ⟨s, 0⟩).2).pos = 1) ∧
    (∀ s : ByteStr, 2 ≤ s.size → s.byteAt 0 = 102 → s.take 4 ≠ flacMagicNumber →
      (New ⟨s, 0⟩).1 = .err .unknownFormat ∧ ((New ⟨s, 0⟩).2).pos ≤ 4) ∧
    (∀ s : ByteStr, 2 ≤ s.size → s.byteAt 0 = 73 → s.take 3 ≠ mp3MagicNumber →
      (New ⟨s, 0⟩).1 = .err .unknownFormat ∧ ((New ⟨s, 0⟩).2).pos ≤ 3) ∧
    (∀ s : ByteStr, 2 ≤ s.size → s.byteAt 0 = 79 → s.take 4 ≠ oggMagicNumber →
      (New ⟨s, 0⟩).1 = .err .unknownFormat ∧ ((New ⟨s, 0⟩).2).pos ≤ 4) ∧
    (New ⟨ByteStr.empty, 0⟩).1 = .err .ioError ∧
    (New ⟨⟨1, 73⟩, 0⟩).1 = .err .ioError ∧
    (New ⟨⟨1, 79⟩, 0⟩).1 = .err .ioError ∧
    (New ⟨⟨1, 120⟩, 0⟩).1 = .err .unknownFormat ∧
    ((New ⟨⟨1, 120⟩, 0⟩).2).pos = 1 ∧
    (New ⟨⟨2, 102 + 256 * 102⟩, 0⟩).1 = .err .unknownFormat := by
  refine ⟨?_, ?_, ?_, ?_, by decide, by decide, by decide, by decide, by decide, by decide⟩
  · intro s hne h102 h73 h79
    have hr1 : BReader.read ⟨s, 0⟩ 1 = some ((s.drop 0).take 1, ⟨s, 0 + 1⟩) := by
      unfold BReader.read
      rw [if_neg (show ¬(s.size ≤ 0) from by omega),
          show min 1 (s.size - 0) = 1 from by omega]
    unfold New
    rw [hr1]
    simp only []
    rw [New_magicBuf1_byteAt s hne, if_neg h102, if_neg h73, if_neg h79]
    exact ⟨rfl, rfl⟩
  · intro s hsz h102 hmagic
    have hne : s.size ≠ 0 := by omega
    have hr1 : BReader.read ⟨s, 0⟩ 1 = some ((s.drop 0).take 1, ⟨s, 0 + 1⟩) := by
      unfold BReader.read
      rw [if_neg (show ¬(s.size ≤ 0) from by omega),
          show min 1 (s.size - 0) = 1 from by omega]
    have hr2 : BReader.read ⟨s, 0 + 1⟩ 3
        = some ((s.drop (0 + 1)).take (min 3 (s.size - (0 + 1))),
                ⟨s, 0 + 1 + min 3 (s.size - (0 + 1))⟩) := by
      unfold BReader.read
      rw [if_neg (show ¬(s.size ≤ 0 + 1) from by omega)]
    unfold New
    rw [hr1]
    simp only []
    rw [New_magicBuf1_byteAt s hne, if_pos h102, hr2]
    simp only []
    rw [New_tail_take s hsz 3 (by omega) (by omega)]
    have hne4 : (⟨4, s.val % 256 ^ min 4 s.size⟩ : ByteStr) ≠ flacMagicNumber := by
      by_cases hreg : 4 ≤ s.size
      · have htake4 : s.take 4 = ⟨4, s.val % 256 ^ min 4 s.size⟩ := by
          show (⟨min 4 s.size, s.val % 256 ^ min 4 s.size⟩ : ByteStr) = _
          rw [show min 4 s.size = 4 from by omega]
        rw [← htake4]
        exact hmagic
      · intro heq
        have hval : s.val % 256 ^ min 4 s.size = flacMagicNumber.val :=
          congrArg ByteStr.val heq
        rw [show flacMagicNumber.val = 1130450022 from by decide] at hval
        have hlt : s.val % 256 ^ min 4 s.size < 256 ^ min 4 s.size :=
          Nat.mod_lt _ (Nat.pos_pow_of_pos _ (by norm_num))
        have hmle : (256 : Nat) ^ min 4 s.size ≤ 256 ^ 3 :=
          Nat.pow_le_pow_right (by norm_num) (by omega)
        have h3 : (256 : Nat) ^ 3 = 16777216 := by norm_num
        omega
    rw [if_neg hne4]
    refine ⟨rfl, ?_⟩
    show 0 + 1 + min 3 (s.size - (0 + 1)) ≤ 4
    omega
  · intro s hsz h73 hmagic
    have hne : s.size ≠ 0 := by omega
    have hr1 : BReader.read ⟨s, 0⟩ 1 = some ((s.drop 0).take 1, ⟨s, 0 + 1⟩) := by
      unfold BReader.read
      rw [if_neg (show ¬(s.size ≤ 0) from by omega),
          show min 1 (s.size - 0) = 1 from by omega]
    have hr2 : BReader.read ⟨s, 0 + 1⟩ 2
        = some ((s.drop (0 + 1)).take (min 2 (s.size - (0 + 1))),
                ⟨s, 0 + 1 + min 2 (s.size - (0 + 1))⟩) := by
      unfold BReader.read
      rw [if_neg (show ¬(s.size ≤ 0 + 1) from by omega)]
    have h102 : s.byteAt 0 ≠ 102 := by omega
    unfold New
    rw [hr1]
    simp only []
    rw [New_magicBuf1_byteAt s hne, if_neg h102, if_pos h73, hr2]
    simp only []
    rw [New_tail_take s hsz 2 (by omega) (by omega)]
    have hne3 : (⟨3, s.val % 256 ^ min 3 s.size⟩ : ByteStr) ≠ mp3MagicNumber := by
      by_cases hreg : 3 ≤ s.size
      · have htake3 : s.take 3 = ⟨3, s.val % 256 ^ min 3 s.size⟩ := by
          show (⟨min 3 s.size, s.val % 256 ^ min 3 s.size⟩ : ByteStr) = _
          rw [show min 3 s.size = 3 from by omega]
        rw [← htake3]
        exact hmagic
      · intro heq
        have hval : s.val % 256 ^ min 3 s.size = mp3MagicNumber.val :=
          congrArg ByteStr.val heq
        rw [show mp3MagicNumber.val = 3359817 from by decide] at hval
        have hlt : s.val % 256 ^ min 3 s.size < 256 ^ min 3 s.size :=
          Nat.mod_lt _ (Nat.pos_pow_of_pos _ (by norm_num))
        have hmle : (256 : Nat) ^ min 3 s.size ≤ 256 ^ 2 :=
          Nat.pow_le_pow_right (by norm_num) (by omega)
        have h2 : (256 : Nat) ^ 2 = 65536 := by norm_num
        omega
    rw [if_neg hne3]
    refine ⟨rfl, ?_⟩
    show 0 + 1 + min 2 (s.size - (0 + 1)) ≤ 3
    omega
  · intro s hsz h79 hmagic
    have hne : s.size ≠ 0 := by omega
    have hr1 : BReader.read ⟨s, 0⟩ 1 = some ((s.drop 0).take 1, ⟨s, 0 + 1⟩) := by
      unfold BReader.read
      rw [if_neg (show ¬(s.size ≤ 0) from by omega),
          show min 1 (s.size - 0) = 1 from by omega]
    have hr2 : BReader.read ⟨s, 0 + 1⟩ 3
        = some ((s.drop (0 + 1)).take (min 3 (s.size - (0 + 1))),
                ⟨s, 0 + 1 + min 3 (s.size - (0 + 1))⟩) := by
      unfold BReader.read
      rw [if_neg (show ¬(s.size ≤ 0 + 1) from by omega)]
    have h102 : s.byteAt 0 ≠ 102 := by omega
    have h73 : s.byteAt 0 ≠ 73 := by omega
    unfold New
    rw [hr1]
    simp only []
    rw [New_magicBuf1_byteAt s hne, if_neg h102, if_neg h73, if_pos h79, hr2]
    simp only []
    rw [New_tail_take s hsz 3 (by omega) (by omega)]
    have hne4 : (⟨4, s.val % 256 ^ min 4 s.size⟩ : ByteStr) ≠ oggMagicNumber := by
      by_cases hreg : 4 ≤ s.size
      · have htake4 : s.take 4 = ⟨4, s.val % 256 ^ min 4 s.size⟩ := by
          show (⟨min 4 s.size, s.val % 256 ^ min 4 s.size⟩ : ByteStr) = _
          rw [show min 4 s.size = 4 from by omega]
        rw [← htake4]
        exact hmagic
      · intro heq
        have hval : s.val % 256 ^ min 4 s.size = oggMagicNumber.val :=
          congrArg ByteStr.val heq
        rw [show oggMagicNumber.val = 1399285583 from by decide] at hval
        have hlt : s.val % 256 ^ min 4 s.size < 256 ^ min 4 s.size :=
          Nat.mod_lt _ (Nat.pos_pow_of_pos _ (by norm_num))
        have hmle : (256 : Nat) ^ min 4 s.size ≤ 256 ^ 3 :=
          Nat.pow_le_pow_right (by norm_num) (by omega)
        have h3 : (256 : Nat) ^ 3 = 16777216 := by norm_num
        omega
    rw [if_neg hne4]
    refine ⟨rfl, ?_⟩
    show 0 + 1 + min 3 (s.size - (0 + 1)) ≤ 4
    omega
